import Mathlib

/-!
Verification of the password-portal one-time-disclosure core.

Shallow embedding of the repository's backend (`src/functions/src/index.ts`),
its encryption utilities (`src/functions/src/utils/encryption.ts`, exercised by
`src/functions/test-encryption.js`) and the staff queue page's revoke action
(`src/src/pages/QueuePage.tsx`).

Conventions:
* Bytes are `Nat` with an explicit `% 256` wherever a byte-sized result is
  produced (the TypeScript source works on `Buffer` bytes, which are 8-bit).
* The `crypto` primitives the source invokes (`aes-256-gcm` via
  `createCipheriv`/`createDecipheriv`, `sha256` via `createHash`) are
  implemented here in full, following FIPS 197 / NIST SP 800-38D / FIPS 180-4,
  since the source selects them by name.  The AES core was checked against the
  FIPS-197 AES-256 known-answer test and the GHASH/CTR construction against
  the NIST GCM test vectors during development.
* Randomness (`crypto.randomBytes` for the IV, `uuidv4` for link ids) is
  externalized: the random value is a parameter of the embedded function.
* Firestore is modelled as an association list of documents keyed by id.
  `db.runTransaction` gives a serializable read-modify-write on the touched
  documents, so a transaction is embedded as one atomic function on the store;
  concurrent calls are modelled as an arbitrary serialization, which is the
  guarantee Firestore provides for committed transactions.
* A JS falsy check on a string argument (`!x`) is modelled as equality with
  `""`; a falsy check on the plaintext password (modelled as its UTF-8 byte
  list) as equality with `[]`.
* The best-effort collaborators (SMTP delivery, the audit `add`) can fail at
  runtime; each embedded operation takes a `Bool` describing whether that
  collaborator call succeeds, and the control flow around a failure follows
  the source's `try`/`catch` structure exactly.
-/

namespace PasswordPortal

/-! ### AES-256 block cipher (FIPS 197), forward direction only -/

/-- The AES S-box packed into one natural number, byte `i` at bits `8*i`. -/
def sboxNum : Nat := 0x16bb54b00f2d99416842e6bf0d89a18cdf2855cee9871e9b948ed9691198f8e19e1dc186b95735610ef6034866b53e708a8bbd4b1f74dde8c6b4a61c2e2578ba08ae7a65eaf4566ca94ed58d6d37c8e779e4959162acd3c25c2406490a3a32e0db0b5ede14b8ee4688902a22dc4f816073195d643d7ea7c41744975fec130ccdd2f3ff1021dab6bcf5389d928f40a351a89f3c507f02f94585334d43fbaaefd0cf584c4a39becb6a5bb1fc20ed00d153842fe329b3d63b52a05a6e1b1a2c830975b227ebe28012079a059618c323c7041531d871f1e5a534ccf73f362693fdb7c072a49cafa2d4adf04759fa7dc982ca76abd7fe2b670130c56f6bf27b777c63

/-- S-box lookup. -/
def sbox (b : Nat) : Nat := (sboxNum >>> (8 * (b % 256))) % 256

/-- Multiplication by `x` in GF(2^8) on a byte. -/
def xtime (b : Nat) : Nat := ((2 * b) ^^^ (if 128 ≤ b % 256 then 27 else 0)) % 256

/-- Byte-level xor: both operands reduced to their byte value. -/
def bxor (x y : Nat) : Nat := x % 256 ^^^ y % 256

/-- Pointwise byte xor of two byte lists. -/
def zipXor (a b : List Nat) : List Nat := List.zipWith bxor a b

/-- AES round constant: `rcon 0 = 0x01`, doubling in GF(2^8). -/
def rcon : Nat → Nat
  | 0 => 1
  | j + 1 => xtime (rcon j)

def subWord (w : List Nat) : List Nat := w.map sbox

def rotWord (w : List Nat) : List Nat := w.drop 1 ++ w.take 1

/-- One step of the AES-256 key schedule: the next 4-byte word. -/
def nextWord (w : List (List Nat)) : List Nat :=
  let i := w.length
  let prev := w.getD (i - 1) []
  let prev8 := w.getD (i - 8) []
  let temp :=
    if i % 8 = 0 then zipXor (subWord (rotWord prev)) [rcon (i / 8 - 1), 0, 0, 0]
    else if i % 8 = 4 then subWord prev
    else prev
  zipXor prev8 temp

def expandWords (w : List (List Nat)) : Nat → List (List Nat)
  | 0 => w
  | n + 1 => expandWords (w ++ [nextWord w]) n

/-- The 60 words of the AES-256 key schedule (key is 32 bytes). -/
def keyWords (key : List Nat) : List (List Nat) :=
  expandWords ((List.range 8).map (fun i => (key.drop (4 * i)).take 4)) 52

/-- Round key `r` (0 ≤ r ≤ 14) as 16 bytes. -/
def roundKey (ws : List (List Nat)) (r : Nat) : List Nat :=
  ((ws.drop (4 * r)).take 4).flatten

/-- ShiftRows on the flat column-major state. -/
def shiftRows (s : List Nat) : List Nat :=
  [0, 5, 10, 15, 4, 9, 14, 3, 8, 13, 2, 7, 12, 1, 6, 11].map (fun i => s.getD i 0)

/-- MixColumns on a single 4-byte column. -/
def mixCol : List Nat → List Nat
  | [a0, a1, a2, a3] =>
    [bxor (bxor (bxor (bxor (xtime a0) (xtime a1)) a1) a2) a3,
     bxor (bxor (bxor (bxor a0 (xtime a1)) (xtime a2)) a2) a3,
     bxor (bxor (bxor (bxor a0 a1) (xtime a2)) (xtime a3)) a3,
     bxor (bxor (bxor (bxor (xtime a0) a0) a1) a2) (xtime a3)]
  | l => l

def mixColumns (s : List Nat) : List Nat :=
  (List.range 4).flatMap (fun c => mixCol ((s.drop (4 * c)).take 4))

/-- One full middle round. -/
def aesRound (rk s : List Nat) : List Nat :=
  zipXor (mixColumns (shiftRows (s.map sbox))) rk

/-- AES-256 forward block transformation: 32-byte key, 16-byte block. -/
def aesBlock (key block : List Nat) : List Nat :=
  let ws := keyWords key
  let s0 := zipXor block (roundKey ws 0)
  let sN := (List.range 13).foldl (fun s r => aesRound (roundKey ws (r + 1)) s) s0
  zipXor (shiftRows (sN.map sbox)) (roundKey ws 14)

/-! ### GCM mode (NIST SP 800-38D) -/

/-- The GCM reduction constant R = 0xE1 ∥ 0^120. -/
def gfR : Nat := 0xE1000000000000000000000000000000

/-- One step of the GF(2^128) multiplication loop. -/
def gfStep (x : Nat) (zv : Nat × Nat) (i : Nat) : Nat × Nat :=
  let z := if (x >>> (127 - i)) % 2 = 1 then zv.1 ^^^ zv.2 else zv.1
  let v := if zv.2 % 2 = 1 then (zv.2 >>> 1) ^^^ gfR else zv.2 >>> 1
  (z, v)

/-- GF(2^128) multiplication in GCM's reflected representation. -/
def gfMul (x y : Nat) : Nat := ((List.range 128).foldl (gfStep x) (0, y)).1

/-- Big-endian bytes-to-number, reducing each entry to its byte value. -/
def bytesToNat (bs : List Nat) : Nat := bs.foldl (fun n b => n * 256 + b % 256) 0

/-- Big-endian number-to-bytes of a fixed length. -/
def natToBytes (len n : Nat) : List Nat :=
  (List.range len).map (fun i => (n >>> (8 * (len - 1 - i))) % 256)

/-- Zero-pad a byte string on the right to a multiple of 16 bytes. -/
def pad16 (data : List Nat) : List Nat :=
  data ++ List.replicate ((16 - data.length % 16) % 16) 0

/-- Split a (padded) byte string into 16-byte blocks. -/
def toBlocks (data : List Nat) : List (List Nat) :=
  (List.range ((data.length + 15) / 16)).map (fun i => (data.drop (16 * i)).take 16)

def ghashBlocks (h : Nat) : Nat → List (List Nat) → Nat
  | y, [] => y
  | y, b :: rest => ghashBlocks h (gfMul (y ^^^ bytesToNat b) h) rest

/-- GHASH over a byte string (zero-padded to full blocks). -/
def ghash (h : Nat) (data : List Nat) : Nat := ghashBlocks h 0 (toBlocks (pad16 data))

/-- The GCM hash subkey H = CIPH_K(0^128). -/
def gcmH (key : List Nat) : Nat := bytesToNat (aesBlock key (List.replicate 16 0))

/-- The pre-counter block J0.  The source uses a 16-byte IV (`IV_LENGTH = 16`),
so the non-96-bit-IV branch of SP 800-38D applies: `J0 = GHASH_H(IV ∥ pad ∥ len)`. -/
def gcmJ0 (key iv : List Nat) : Nat :=
  ghash (gcmH key) (pad16 iv ++ List.replicate 8 0 ++ natToBytes 8 (8 * iv.length))

/-- The 32-bit increment on the low word of a counter block. -/
def inc32 (n : Nat) : Nat := n / 2 ^ 32 * 2 ^ 32 + (n % 2 ^ 32 + 1) % 2 ^ 32

/-- Concatenated CTR keystream blocks CIPH_K(inc32^1(J0)), CIPH_K(inc32^2(J0)), … -/
def ctrBlocks (key : List Nat) (j0 : Nat) (nblocks : Nat) : List Nat :=
  (List.range nblocks).flatMap (fun i => aesBlock key (natToBytes 16 (inc32^[i + 1] j0)))

/-- The first `n` keystream bytes for the given key and IV. -/
def keystream (key iv : List Nat) (n : Nat) : List Nat :=
  (ctrBlocks key (gcmJ0 key iv) ((n + 15) / 16)).take n

/-- The 16-byte GCM authentication tag over a ciphertext (no AAD, as in the source). -/
def gcmTag (key iv ct : List Nat) : List Nat :=
  let s := ghash (gcmH key) (pad16 ct ++ natToBytes 8 0 ++ natToBytes 8 (8 * ct.length))
  zipXor (aesBlock key (natToBytes 16 (gcmJ0 key iv))) (natToBytes 16 s)

/-! ### Hex transport encoding (`Buffer.toString('hex')` / `Buffer.from(hex, 'hex')`) -/

def hexDigitChar (n : Nat) : Char :=
  if n < 10 then Char.ofNat (48 + n) else Char.ofNat (87 + n)

/-- Lowercase hex encoding of a byte list, as `Buffer.toString('hex')` produces. -/
def hexEncode (bs : List Nat) : String :=
  String.mk (bs.flatMap (fun b => [hexDigitChar (b % 256 / 16), hexDigitChar (b % 16)]))

def hexDigitVal (c : Char) : Option Nat :=
  if 48 ≤ c.toNat ∧ c.toNat ≤ 57 then some (c.toNat - 48)
  else if 97 ≤ c.toNat ∧ c.toNat ≤ 102 then some (c.toNat - 87)
  else none

def hexDecodeAux : List Char → Option (List Nat)
  | [] => some []
  | c1 :: c2 :: rest =>
    match hexDigitVal c1, hexDigitVal c2, hexDecodeAux rest with
    | some h, some l, some r => some ((16 * h + l) :: r)
    | _, _, _ => none
  | [_] => none

/-- Hex decoding of a string into a byte list. -/
def hexDecode (s : String) : Option (List Nat) := hexDecodeAux s.data

/-! ### The encryption utilities (`src/functions/src/utils/encryption.ts`)

`encryptPassword(password, encryptionKey)` generates a random 16-byte IV,
encrypts the UTF-8 plaintext under AES-256-GCM and returns hex strings; the
random IV is a parameter here, the plaintext is its UTF-8 byte list and the
key the 32-byte buffer obtained from the hex-encoded secret. -/

structure EncryptedTriple where
  encryptedPassword : String
  iv : String
  authTag : String
deriving DecidableEq, Repr

def encryptPassword (password key ivBytes : List Nat) : EncryptedTriple :=
  let ct := zipXor password (keystream key ivBytes password.length)
  { encryptedPassword := hexEncode ct
    iv := hexEncode ivBytes
    authTag := hexEncode (gcmTag key ivBytes ct) }

/-- The final step of decryption: `decipher.final()` verifies the supplied tag
against the recomputed one and yields the keystream-xored plaintext. -/
def tagCheck (key ivb ct tag : List Nat) : Option (List Nat) :=
  if tag = gcmTag key ivb ct then some (zipXor ct (keystream key ivb ct.length)) else none

def decryptPassword (encryptedPassword iv authTag : String) (key : List Nat) :
    Option (List Nat) :=
  (hexDecode encryptedPassword).bind fun ct =>
    (hexDecode iv).bind fun ivb =>
      (hexDecode authTag).bind fun tag => tagCheck key ivb ct tag

/-! ### SHA-256 (FIPS 180-4), backing `hashApiKey` -/

/-- The 64 SHA-256 round constants, packed as one numeral: constant `t` sits at
bits `32*t`. -/
def sha256KNum : Nat := 0xc67178f2bef9a3f7a4506ceb90befffa8cc7020884c8781478a5636f748f82ee682e6ff35b9cca4f4ed8aa4a391c0cb334b0bcb52748774c1e376c0819a4c116106aa070f40e3585d6990624d192e819c76c51a3c24b8b70a81a664ba2bfe8a192722c8581c2c92e766a0abb650a735453380d134d2c6dfc2e1b213827b70a851429296706ca6351d5a79147c6e00bf3bf597fc7b00327c8a831c66d983e515276f988da5cb0a9dc4a7484aa2de92c6f240ca1cc0fc19dc6efbe4786e49b69c1c19bf1749bdc06a780deb1fe72be5d74550c7dc3243185be12835b01d807aa98ab1c5ed5923f82a459f111f13956c25be9b5dba5b5c0fbcf71374491428a2f98

def sha256K (t : Nat) : Nat := sha256KNum >>> (32 * t) % 2 ^ 32

/-- The initial SHA-256 hash state, packed as one numeral: word `i` sits at
bits `32*i`. -/
def sha256H0Num : Nat := 0x5be0cd191f83d9ab9b05688c510e527fa54ff53a3c6ef372bb67ae856a09e667

def sha256H0 : List Nat := (List.range 8).map (fun i => sha256H0Num >>> (32 * i) % 2 ^ 32)

def rotr32 (n x : Nat) : Nat := ((x >>> n) ||| (x <<< (32 - n))) % 2 ^ 32

def add32 (a b : Nat) : Nat := (a + b) % 2 ^ 32

def not32 (x : Nat) : Nat := (2 ^ 32 - 1) ^^^ x % 2 ^ 32

def bigSigma0 (x : Nat) : Nat := rotr32 2 x ^^^ rotr32 13 x ^^^ rotr32 22 x

def bigSigma1 (x : Nat) : Nat := rotr32 6 x ^^^ rotr32 11 x ^^^ rotr32 25 x

def smallSigma0 (x : Nat) : Nat := rotr32 7 x ^^^ rotr32 18 x ^^^ x >>> 3

def smallSigma1 (x : Nat) : Nat := rotr32 17 x ^^^ rotr32 19 x ^^^ x >>> 10

def chf (x y z : Nat) : Nat := x &&& y ^^^ not32 x &&& z

def maj (x y z : Nat) : Nat := x &&& y ^^^ x &&& z ^^^ y &&& z

/-- 4-byte big-endian words of a byte string. -/
def toWords (bs : List Nat) : List Nat :=
  (List.range (bs.length / 4)).map (fun i => bytesToNat ((bs.drop (4 * i)).take 4))

/-- Extend the 16-word message schedule by the given number of words. -/
def schedExtend (w : List Nat) : Nat → List Nat
  | 0 => w
  | n + 1 =>
    let i := w.length
    schedExtend (w ++ [add32 (add32 (smallSigma1 (w.getD (i - 2) 0)) (w.getD (i - 7) 0))
      (add32 (smallSigma0 (w.getD (i - 15) 0)) (w.getD (i - 16) 0))]) n

def compressStep (w : List Nat) (st : List Nat) (t : Nat) : List Nat :=
  match st with
  | [a, b, c, d, e, f, g, h] =>
    let t1 := add32 (add32 (add32 h (bigSigma1 e)) (add32 (chf e f g) (sha256K t)))
      (w.getD t 0)
    let t2 := add32 (bigSigma0 a) (maj a b c)
    [add32 t1 t2, a, b, c, add32 d t1, e, f, g]
  | s => s

def sha256Block (h block : List Nat) : List Nat :=
  let w := schedExtend (toWords block) 48
  List.zipWith add32 h ((List.range 64).foldl (compressStep w) h)

def sha256Pad (msg : List Nat) : List Nat :=
  msg ++ 128 :: (List.replicate ((64 - (msg.length + 9) % 64) % 64) 0
    ++ natToBytes 8 (8 * msg.length))

def toBlocks64 (data : List Nat) : List (List Nat) :=
  (List.range (data.length / 64)).map (fun i => (data.drop (64 * i)).take 64)

/-- SHA-256 digest (32 bytes) of a byte string. -/
def sha256 (msg : List Nat) : List Nat :=
  ((toBlocks64 (sha256Pad msg)).foldl sha256Block sha256H0).flatMap (natToBytes 4)

/-- UTF-8 encoding of a character, computed from its code point. -/
def charBytes (c : Char) : List Nat :=
  let n := c.toNat
  if n < 128 then [n]
  else if n < 2048 then [192 + n / 64, 128 + n % 64]
  else if n < 65536 then [224 + n / 4096, 128 + n / 64 % 64, 128 + n % 64]
  else [240 + n / 262144, 128 + n / 4096 % 64, 128 + n / 64 % 64, 128 + n % 64]

def strBytes (s : String) : List Nat := s.data.flatMap charBytes

/-- `hashApiKey(apiKey)`: the hex SHA-256 digest of the raw credential. -/
def hashApiKey (apiKey : String) : String := hexEncode (sha256 (strBytes apiKey))

/-! ### The link store (`passwords` collection) and audit log (`audit_logs`) -/

/-- The closed status enum of `PasswordDoc` in `src/functions/src/index.ts`. -/
inductive Status
  | pending
  | sent
  | viewed
  | expired
  | revoked
deriving DecidableEq, Repr

/-- The source's consumed-link test, written in `checkPasswordLink` and
`viewPassword` as `status === 'viewed' || status === 'expired' || status === 'revoked'`. -/
def Status.isTerminal : Status → Bool
  | .viewed => true
  | .expired => true
  | .revoked => true
  | _ => false

/-- A `passwords` document.  Timestamps are abstract `Nat` instants. -/
structure PasswordDoc where
  encryptedPassword : String
  iv : String
  authTag : String
  recipientEmail : String
  recipientName : String
  notes : String
  createdBy : String
  createdByEmail : String
  createdAt : Nat
  status : Status
  viewedAt : Option Nat := none
  viewedFromIP : Option String := none
  emailSent : Bool
  emailSentAt : Option Nat := none
  source : String
  apiKeyId : Option String := none
  regeneratedTo : Option String := none
  regeneratedFrom : Option String := none
deriving DecidableEq, Repr

/-- An `audit_logs` document (the free-form `details` map is kept as key/value pairs). -/
structure AuditLog where
  action : String
  actorId : Option String := none
  actorEmail : Option String := none
  targetId : Option String := none
  details : List (String × String) := []
  ip : String
  timestamp : Nat
deriving DecidableEq, Repr

/-- The Firestore slice the handlers touch: the `passwords` collection keyed by
document id, and the append-only `audit_logs` collection. -/
structure Store where
  passwords : List (String × PasswordDoc)
  auditLogs : List AuditLog
deriving DecidableEq, Repr

/-- `db.collection('passwords').doc(id).get()`. -/
def lookupIn (ps : List (String × PasswordDoc)) (id : String) : Option PasswordDoc :=
  (ps.find? (fun p => p.fst == id)).map (fun p => p.snd)

def lookupDoc (st : Store) (id : String) : Option PasswordDoc := lookupIn st.passwords id

/-- `doc(id).set(d)` / the write half of `doc(id).update(...)`: replace the
document stored under `id`, or create it. -/
def setDoc (ps : List (String × PasswordDoc)) (id : String) (d : PasswordDoc) :
    List (String × PasswordDoc) :=
  match ps with
  | [] => [(id, d)]
  | (k, v) :: rest => if k == id then (id, d) :: rest else (k, v) :: setDoc rest id d

/-- The user records consulted for role checks (`users` collection). -/
structure UserRec where
  email : String
  role : String
deriving DecidableEq, Repr

/-- The `HttpsError` codes the handlers throw. -/
inductive FnError
  | invalidArgument (msg : String)
  | unauthenticated (msg : String)
  | permissionDenied (msg : String)
  | notFound (msg : String)
  | failedPrecondition (msg : String)
  | internal (msg : String)
deriving DecidableEq, Repr

def appUrl : String := "https://password.initiolearning.org"

/-! ### `viewPassword` (index.ts lines 228-295): the reveal operation -/

structure ViewResponse where
  password : List Nat
  recipientName : String
deriving DecidableEq, Repr

/-- The `db.runTransaction` body of `viewPassword`: atomic read-modify-write on
the link.  Decryption failure aborts the transaction before any write (the
thrown error is mapped to `internal` by the handler's catch-all). -/
def viewPasswordTx (key : List Nat) (st : Store) (id : String) (now : Nat) (ip : String) :
    Store × Except FnError ViewResponse :=
  if id = "" then (st, .error (.invalidArgument "Link ID is required"))
  else
    match lookupDoc st id with
    | none => (st, .error (.notFound "Password link not found"))
    | some d =>
      if d.status.isTerminal then
        (st, .error (.failedPrecondition "This link has already been used"))
      else
        match decryptPassword d.encryptedPassword d.iv d.authTag key with
        | none => (st, .error (.internal "Failed to retrieve password"))
        | some pw =>
          ({ st with passwords := (setDoc st.passwords id
              { d with status := .viewed, viewedAt := some now, viewedFromIP := some ip,
                       encryptedPassword := "", iv := "", authTag := "" }) },
            .ok { password := pw, recipientName := d.recipientName })

/-- The whole `viewPassword` handler: the transaction above, then the audit
`add` outside the transaction.  `auditOk` is whether that `add` resolves; if it
rejects, the surrounding `catch` rethrows `internal` — after the transaction
has already committed. -/
def viewPassword (key : List Nat) (st : Store) (id : String) (now : Nat) (ip : String)
    (auditOk : Bool) : Store × Except FnError ViewResponse :=
  match viewPasswordTx key st id now ip with
  | (st1, .ok r) =>
    if auditOk then
      ({ st1 with auditLogs := st1.auditLogs ++
          [{ action := "view", targetId := some id, ip := ip, timestamp := now }] }, .ok r)
    else (st1, .error (.internal "Failed to retrieve password"))
  | (st1, .error e) => (st1, .error e)

/-! ### `checkPasswordLink` (index.ts lines 191-223) -/

structure CheckResponse where
  valid : Bool
  recipientName : Option String := none
deriving DecidableEq, Repr

def checkPasswordLink (st : Store) (id : String) : Except FnError CheckResponse :=
  if id = "" then .error (.invalidArgument "Link ID is required")
  else
    match lookupDoc st id with
    | none => .ok { valid := false }
    | some d =>
      if d.status.isTerminal then .ok { valid := false }
      else .ok { valid := true, recipientName := some d.recipientName }

/-! ### `createPasswordLink` (index.ts lines 46-186) -/

structure CreateReq where
  recipientEmail : String
  recipientName : String := ""
  password : List Nat
  notes : String := ""
  sendNotification : Bool := false
deriving DecidableEq, Repr

structure CreateResponse where
  id : String
  password : List Nat
  link : String
  recipientEmail : String
  recipientName : String
deriving DecidableEq, Repr

/-- `createPasswordLink`.  `auth` is the caller's uid if authenticated, `users`
the `users` collection, `linkId` the generated uuid, `ivBytes` the random IV.
`auditOk` is whether the audit `add` resolves: the source awaits it inside the
`try`, so a rejection is caught and rethrown as `internal` (the already-written
password document stays).  `emailOk` is whether SMTP delivery succeeds when
`sendNotification` is set; its failure is swallowed by the inner catch. -/
def createPasswordLink (key : List Nat) (users : List (String × UserRec))
    (auth : Option String) (req : CreateReq) (linkId : String) (ivBytes : List Nat)
    (now : Nat) (ip : String) (auditOk emailOk : Bool) (st : Store) :
    Store × Except FnError CreateResponse :=
  match auth with
  | none => (st, .error (.unauthenticated "Must be logged in"))
  | some uid =>
    if req.recipientEmail = "" ∨ req.password = [] then
      (st, .error (.invalidArgument "Email and password are required"))
    else
      match (users.find? (fun p => p.fst == uid)).map (fun p => p.snd) with
      | none => (st, .error (.permissionDenied "User not found"))
      | some u =>
        if u.role ≠ "admin" ∧ u.role ≠ "technician" then
          (st, .error (.permissionDenied "Insufficient permissions"))
        else
          let enc := encryptPassword req.password key ivBytes
          let doc : PasswordDoc :=
            { encryptedPassword := enc.encryptedPassword, iv := enc.iv, authTag := enc.authTag,
              recipientEmail := req.recipientEmail, recipientName := req.recipientName,
              notes := req.notes, createdBy := uid, createdByEmail := u.email,
              createdAt := now, status := .pending, emailSent := false, source := "dashboard" }
          let st1 : Store := { st with passwords := setDoc st.passwords linkId doc }
          if auditOk then
            let st2 : Store := { st1 with auditLogs := st1.auditLogs ++
              [{ action := "create", actorId := some uid, actorEmail := some u.email,
                 targetId := some linkId,
                 details := [("recipientEmail", req.recipientEmail),
                             ("recipientName", req.recipientName), ("source", "dashboard")],
                 ip := ip, timestamp := now }] }
            let st3 : Store :=
              if req.sendNotification ∧ emailOk then
                { st2 with passwords := (setDoc st2.passwords linkId
                    { doc with status := .sent, emailSent := true, emailSentAt := some now }) }
              else st2
            (st3, .ok { id := linkId, password := req.password,
                        link := appUrl ++ "/p/" ++ linkId,
                        recipientEmail := req.recipientEmail,
                        recipientName := req.recipientName })
          else (st1, .error (.internal "Failed to create password link"))

/-! ### `sendPasswordEmail` (index.ts lines 644-768) -/

/-- `sendPasswordEmail` re-sends the notification for an existing link.  After
a successful SMTP send it runs `update({status: 'sent', ...})` with **no check
of the current status**, then awaits the audit `add` inside the same `try`: if
that `add` rejects, the catch rethrows `internal` although the status update
has already been written (`auditOk` is whether the `add` resolves). -/
def sendPasswordEmail (users : List (String × UserRec)) (auth : Option String)
    (st : Store) (passwordId : String) (now : Nat) (ip : String) (emailOk auditOk : Bool) :
    Store × Except FnError Bool :=
  match auth with
  | none => (st, .error (.unauthenticated "Must be logged in"))
  | some uid =>
    if passwordId = "" then (st, .error (.invalidArgument "Password ID is required"))
    else
      match (users.find? (fun p => p.fst == uid)).map (fun p => p.snd) with
      | none => (st, .error (.permissionDenied "Insufficient permissions"))
      | some u =>
        if u.role ≠ "admin" ∧ u.role ≠ "technician" then
          (st, .error (.permissionDenied "Insufficient permissions"))
        else
          match lookupDoc st passwordId with
          | none => (st, .error (.notFound "Password not found"))
          | some d =>
            if emailOk then
              let st1 : Store := { st with passwords := (setDoc st.passwords passwordId
                  { d with status := .sent, emailSent := true, emailSentAt := some now }) }
              if auditOk then
                ({ st1 with auditLogs := st1.auditLogs ++
                    [{ action := "send_email", actorId := some uid,
                       actorEmail := some u.email, targetId := some passwordId,
                       details := [("recipientEmail", d.recipientEmail)],
                       ip := ip, timestamp := now }] }, .ok true)
              else (st1, .error (.internal "Failed to send email"))
            else (st, .error (.internal "Failed to send email"))

/-! ### `handleRevoke` (src/src/pages/QueuePage.tsx lines 144-160)

The staff revoke action is a client-side Firestore
`updateDoc(doc(db, 'passwords', id), { status: 'revoked' })`: no read of the
current status, no guard, and no audit write. -/

def handleRevoke (st : Store) (passwordId : String) : Store × Except FnError Unit :=
  match lookupDoc st passwordId with
  | none => (st, .error (.notFound "No document to update"))
  | some d =>
    ({ st with passwords := (setDoc st.passwords passwordId { d with status := .revoked }) },
      .ok ())

/-! ### `regeneratePasswordLink` (index.ts lines 300-397) -/

/-- `regeneratePasswordLink`: revoke the original and create the replacement in
one `db.runTransaction`, then await the audit `add` inside the same `try`.
`newLinkId` is the generated uuid and `ivBytes` the fresh IV.  All guard
failures precede the transaction and leave the store untouched; an audit
failure (`auditOk = false`) is caught after the transaction committed, so the
catch rethrows `internal` while both mutations remain visible. -/
def regeneratePasswordLink (key : List Nat) (users : List (String × UserRec))
    (auth : Option String) (st : Store) (originalId : String) (password : List Nat)
    (newLinkId : String) (ivBytes : List Nat) (now : Nat) (ip : String) (auditOk : Bool) :
    Store × Except FnError CreateResponse :=
  match auth with
  | none => (st, .error (.unauthenticated "Must be logged in"))
  | some uid =>
    if originalId = "" ∨ password = [] then
      (st, .error (.invalidArgument "Original ID and password are required"))
    else
      match (users.find? (fun p => p.fst == uid)).map (fun p => p.snd) with
      | none => (st, .error (.permissionDenied "User not found"))
      | some u =>
        if u.role ≠ "admin" ∧ u.role ≠ "technician" then
          (st, .error (.permissionDenied "Insufficient permissions"))
        else
          match lookupDoc st originalId with
          | none => (st, .error (.notFound "Original password link not found"))
          | some orig =>
            let enc := encryptPassword password key ivBytes
            let newDoc : PasswordDoc :=
              { encryptedPassword := enc.encryptedPassword, iv := enc.iv,
                authTag := enc.authTag, recipientEmail := orig.recipientEmail,
                recipientName := orig.recipientName, notes := orig.notes,
                createdBy := uid, createdByEmail := u.email, createdAt := now,
                status := .pending, emailSent := false, source := "dashboard",
                regeneratedFrom := some originalId }
            let ps1 := setDoc st.passwords originalId
              { orig with status := .revoked, regeneratedTo := some newLinkId }
            let st1 : Store := { st with passwords := setDoc ps1 newLinkId newDoc }
            if auditOk then
              ({ st1 with auditLogs := st1.auditLogs ++
                  [{ action := "regenerate", actorId := some uid,
                     actorEmail := some u.email, targetId := some newLinkId,
                     details := [("originalId", originalId),
                                 ("recipientEmail", orig.recipientEmail)],
                     ip := ip, timestamp := now }] },
                .ok { id := newLinkId, password := password,
                      link := appUrl ++ "/p/" ++ newLinkId,
                      recipientEmail := orig.recipientEmail,
                      recipientName := orig.recipientName })
            else (st1, .error (.internal "Failed to regenerate password link"))

/-! ### The external API endpoint `api` (index.ts lines 404-567) -/

/-- An `api_keys` document. -/
structure ApiKeyDoc where
  id : String
  name : String
  keyHash : String
  active : Bool
deriving DecidableEq, Repr

structure ApiReq where
  method : String
  apiKey : Option String
  clientIP : String
  recipientEmail : String := ""
  recipientName : String := ""
  password : List Nat := []
  notes : String := ""
  sendEmail : Bool := false
deriving DecidableEq, Repr

inductive ApiResp
  | err (status : Nat) (msg : String)
  | created (id : String) (link : String) (status : Status)
deriving DecidableEq, Repr

/-- The `api` HTTP handler.  `apiKeys` is the `api_keys` collection, `whitelist`
the `ip` fields of the `ip_whitelist` collection.  The whitelist test is the
source's `allowedIPs.includes(clientIP)` — exact string membership.  The
best-effort `lastUsed` update on the matched key document and the optional
email send (whose failure is swallowed) do not affect the modelled state. -/
def api (key : List Nat) (apiKeys : List ApiKeyDoc) (whitelist : List String)
    (req : ApiReq) (linkId : String) (ivBytes : List Nat) (now : Nat) (st : Store) :
    Store × ApiResp :=
  if req.method ≠ "POST" then (st, .err 405 "Method not allowed")
  else
    match req.apiKey with
    | none => (st, .err 401 "API key required")
    | some k =>
      match apiKeys.find? (fun d => d.keyHash == hashApiKey k && d.active) with
      | none => (st, .err 401 "Invalid API key")
      | some keyDoc =>
        if whitelist.length > 0 ∧ ¬ whitelist.contains req.clientIP then
          (st, .err 403 "IP not whitelisted")
        else if req.recipientEmail = "" ∨ req.password = [] then
          (st, .err 400 "recipientEmail and password are required")
        else
          let enc := encryptPassword req.password key ivBytes
          let doc : PasswordDoc :=
            { encryptedPassword := enc.encryptedPassword, iv := enc.iv,
              authTag := enc.authTag, recipientEmail := req.recipientEmail,
              recipientName := req.recipientName, notes := req.notes,
              createdBy := "api", createdByEmail := "API: " ++ keyDoc.name,
              createdAt := now, status := if req.sendEmail then .sent else .pending,
              emailSent := req.sendEmail,
              emailSentAt := if req.sendEmail then some now else none,
              source := "api", apiKeyId := some keyDoc.id }
          let st1 : Store := { st with passwords := setDoc st.passwords linkId doc }
          ({ st1 with auditLogs := st1.auditLogs ++
              [{ action := "api_call", targetId := some linkId,
                 details := [("apiKeyId", keyDoc.id), ("apiKeyName", keyDoc.name),
                             ("recipientEmail", req.recipientEmail), ("action", "create")],
                 ip := req.clientIP, timestamp := now }] },
            .created linkId (appUrl ++ "/p/" ++ linkId) doc.status)

/-! ### Spec-side CIDR interpretation (for claim C7)

The specification describes the allow-list as matching "exact or CIDR"; the
source performs only exact string membership.  The following definition is
modelled from the spec's words to state that divergence. -/

/-- Split a character list on a separator character. -/
def splitOnChar (c : Char) : List Char → List (List Char)
  | [] => [[]]
  | x :: xs =>
    if x = c then [] :: splitOnChar c xs
    else
      match splitOnChar c xs with
      | [] => [[x]]
      | y :: ys => (x :: y) :: ys

def digitVal? (c : Char) : Option Nat :=
  if 48 ≤ c.toNat ∧ c.toNat ≤ 57 then some (c.toNat - 48) else none

/-- Parse a non-empty decimal digit string. -/
def digitsToNat? : List Char → Option Nat
  | [] => none
  | cs => cs.foldl (fun acc c => acc.bind fun n => (digitVal? c).map fun d => 10 * n + d)
      (some 0)

/-- Parse a dotted-quad IPv4 address into its 32-bit value. -/
def ipToNat (s : String) : Option Nat :=
  match (splitOnChar '.' s.data).map digitsToNat? with
  | [some a, some b, some c, some d] =>
    if a < 256 ∧ b < 256 ∧ c < 256 ∧ d < 256 then
      some (((a * 256 + b) * 256 + c) * 256 + d)
    else none
  | _ => none

/-- Modelled from the spec: an allow-list entry admits a source address when it
equals it exactly or, for a `base/bits` entry, when the address lies in the
CIDR range (the top `bits` bits of the two addresses agree). -/
def specCidrContains (entry ip : String) : Bool :=
  match splitOnChar '/' entry.data with
  | [base, bits] =>
    match ipToNat (String.mk base), ipToNat ip, digitsToNat? bits with
    | some b, some i, some n => if n ≤ 32 then b >>> (32 - n) == i >>> (32 - n) else false
    | _, _, _ => false
  | _ => entry == ip

/-! ### N serialized reveal calls (for the exactly-once property)

Firestore serializes the committed `runTransaction` bodies that touch the same
document, so N concurrent `viewPassword` calls on one id execute as N
sequential transactions in some order; as the calls are identical, that order
is the following iteration. -/

def revealTimes (key : List Nat) (st : Store) (id : String) (now : Nat) (ip : String) :
    Nat → Store × List (Except FnError ViewResponse)
  | 0 => (st, [])
  | n + 1 =>
    let r := viewPassword key st id now ip true
    let rest := revealTimes key r.1 id now ip n
    (rest.1, r.2 :: rest.2)

/-! ### The operation alphabet of the system (for the monotonic-status claim) -/

/-- One invocation of any store-mutating operation of the system. -/
inductive StoreOp
  | reveal (id : String) (now : Nat) (ip : String)
  | revoke (id : String)
  | regen (originalId : String) (password : List Nat) (newId : String) (iv : List Nat)
      (now : Nat) (ip : String)
  | send (id : String) (now : Nat) (ip : String)
  | create (req : CreateReq) (linkId : String) (iv : List Nat) (now : Nat) (ip : String)

/-- The store reached after an operation (collaterals such as the returned
value are dropped; collaborators are taken to succeed). -/
def applyOp (key : List Nat) (users : List (String × UserRec)) (actor : Option String)
    (st : Store) : StoreOp → Store
  | .reveal id now ip => (viewPassword key st id now ip true).1
  | .revoke id => (handleRevoke st id).1
  | .regen o pw n iv now ip =>
    (regeneratePasswordLink key users actor st o pw n iv now ip true).1
  | .send id now ip => (sendPasswordEmail users actor st id now ip true true).1
  | .create req l iv now ip => (createPasswordLink key users actor req l iv now ip true true st).1

/-- Operations that do not touch link `id` with a fresh-id write and are not
the unguarded send-email update: the restriction under which the monotonicity
claim does hold (`send` breaks it, see the C4 counterexample; the `newId`side
conditions encode uuid freshness). -/
def opSafeFor (id : String) : StoreOp → Prop
  | .send _ _ _ => False
  | .regen _ _ n _ _ _ => n ≠ id
  | .create _ l _ _ _ => l ≠ id
  | _ => True

/-! ### Concrete fixtures for witnesses and counterexamples -/

def keyW : List Nat := List.range 32

def ivW : List Nat := (List.range 16).map (fun i => i + 100)

/-- The UTF-8 bytes of the spec's example secret `"Sunset42"`. -/
def pwW : List Nat := [83, 117, 110, 115, 101, 116, 52, 50]

def usersW : List (String × UserRec) :=
  [("u1", { email := "tech@example.org", role := "technician" })]

def encW : EncryptedTriple := encryptPassword pwW keyW ivW

def docPendingW : PasswordDoc :=
  { encryptedPassword := encW.encryptedPassword, iv := encW.iv, authTag := encW.authTag,
    recipientEmail := "alice@example.org", recipientName := "Alice", notes := "",
    createdBy := "u1", createdByEmail := "tech@example.org", createdAt := 0,
    status := .pending, emailSent := false, source := "dashboard" }

def docViewedW : PasswordDoc :=
  { docPendingW with status := .viewed, encryptedPassword := "", iv := "", authTag := "",
                     viewedAt := some 1, viewedFromIP := some "203.0.113.5" }

def stPendingW : Store := { passwords := [("id1", docPendingW)], auditLogs := [] }

def stViewedW : Store := { passwords := [("idB", docViewedW)], auditLogs := [] }

def emptyStore : Store := { passwords := [], auditLogs := [] }

/-- A creation request whose recipient email contains no `@`. -/
def reqNoAt : CreateReq := { recipientEmail := "nobody", password := [120] }

/-- A creation request with the recipient email missing (JS falsy). -/
def reqEmptyW : CreateReq := { recipientEmail := "", password := [120] }

def apiKeysW : List ApiKeyDoc :=
  [{ id := "ak1", name := "salamander", keyHash := hashApiKey "sk-test-credential",
     active := true }]

/-- A well-formed programmatic creation request from inside `10.0.0.0/8`. -/
def reqCidr : ApiReq :=
  { method := "POST", apiKey := some "sk-test-credential", clientIP := "10.1.2.3",
    recipientEmail := "alice@example.org", password := [120] }

def reqPostW : ApiReq :=
  { method := "POST", apiKey := some "sk-z", clientIP := "198.51.100.4",
    recipientEmail := "alice@example.org", password := [120] }

/-! ## Lemmas about the byte-level primitives -/

theorem bxor_lt (x y : Nat) : bxor x y < 256 := by
  have hx : x % 256 < 2 ^ 8 := Nat.mod_lt x (by norm_num)
  have hy : y % 256 < 2 ^ 8 := Nat.mod_lt y (by norm_num)
  exact Nat.xor_lt_two_pow hx hy

theorem mem_zipXor_lt (a : List Nat) : ∀ (b : List Nat), ∀ x ∈ zipXor a b, x < 256 := by
  induction a with
  | nil => intro b x hx; simp [zipXor] at hx
  | cons h t ih =>
    intro b x hx
    cases b with
    | nil => simp [zipXor] at hx
    | cons h2 t2 =>
      simp only [zipXor, List.zipWith_cons_cons] at hx
      rcases List.mem_cons.mp hx with rfl | hx2
      · exact bxor_lt h h2
      · exact ih t2 x hx2

theorem bxor_bxor_cancel {a : Nat} (b : Nat) (ha : a < 256) : bxor (bxor a b) b = a := by
  have h1 : bxor a b < 256 := bxor_lt a b
  show bxor a b % 256 ^^^ b % 256 = a
  rw [Nat.mod_eq_of_lt h1]
  show a % 256 ^^^ b % 256 ^^^ b % 256 = a
  rw [Nat.xor_cancel_right, Nat.mod_eq_of_lt ha]

theorem zipXor_cancel : ∀ (p k : List Nat), p.length ≤ k.length → (∀ b ∈ p, b < 256) →
    zipXor (zipXor p k) k = p := by
  intro p
  induction p with
  | nil => intro k _ _; simp [zipXor]
  | cons a t ih =>
    intro k hlen hb
    cases k with
    | nil => simp at hlen
    | cons b k2 =>
      simp only [zipXor, List.zipWith_cons_cons]
      have h1 := bxor_bxor_cancel b (hb a (List.mem_cons_self a t))
      have h2 := ih k2 (by simpa using hlen) (fun x hx => hb x (List.mem_cons_of_mem _ hx))
      simp only [zipXor] at h2
      rw [h1, h2]

theorem zipXor_length (a b : List Nat) : (zipXor a b).length = min a.length b.length :=
  List.length_zipWith _ _ _

/-! ## Lemmas about the hex transport encoding -/

theorem hexDigit_round : ∀ x, x < 16 → hexDigitVal (hexDigitChar x) = some x := by decide

theorem hexDecodeAux_encode (bs : List Nat) :
    hexDecodeAux (bs.flatMap (fun b => [hexDigitChar (b % 256 / 16), hexDigitChar (b % 16)]))
      = some (bs.map (fun b => b % 256)) := by
  induction bs with
  | nil => rfl
  | cons b t ih =>
    have hmod : b % 256 < 256 := Nat.mod_lt b (by norm_num)
    have h1 : hexDigitVal (hexDigitChar (b % 256 / 16)) = some (b % 256 / 16) :=
      hexDigit_round _ ((Nat.div_lt_iff_lt_mul (by norm_num)).2 (by omega))
    have h2 : hexDigitVal (hexDigitChar (b % 16)) = some (b % 16) :=
      hexDigit_round _ (Nat.mod_lt b (by norm_num))
    have h3 := Nat.div_add_mod (b % 256) 16
    have h4 : b % 256 % 16 = b % 16 := Nat.mod_mod_of_dvd b (by norm_num)
    have h5 : 16 * (b % 256 / 16) + b % 16 = b % 256 := by omega
    show hexDecodeAux (hexDigitChar (b % 256 / 16) :: hexDigitChar (b % 16) ::
        t.flatMap (fun b => [hexDigitChar (b % 256 / 16), hexDigitChar (b % 16)])) =
      some (List.map (fun b => b % 256) (b :: t))
    simp only [hexDecodeAux, h1, h2, ih, List.map_cons, h5]

theorem map_mod256_id {l : List Nat} (h : ∀ x ∈ l, x < 256) :
    l.map (fun b => b % 256) = l := by
  induction l with
  | nil => rfl
  | cons a t ih =>
    simp only [List.map_cons]
    rw [Nat.mod_eq_of_lt (h a (List.mem_cons_self a t)),
      ih (fun x hx => h x (List.mem_cons_of_mem _ hx))]

theorem hexDecode_hexEncode (bs : List Nat) :
    hexDecode (hexEncode bs) = some (bs.map (fun b => b % 256)) := by
  simpa [hexDecode, hexEncode] using hexDecodeAux_encode bs

theorem hexDecode_hexEncode_of_lt {bs : List Nat} (h : ∀ x ∈ bs, x < 256) :
    hexDecode (hexEncode bs) = some bs := by
  rw [hexDecode_hexEncode, map_mod256_id h]

/-! ## Length lemmas: the keystream has exactly the requested length -/

theorem getD_mem {α : Type} {l : List α} {n : Nat} (d : α) (h : n < l.length) :
    l.getD n d ∈ l := by
  have heq : l.getD n d = l[n] := by simp [List.getD, h]
  rw [heq]
  exact List.getElem_mem h

theorem rotWord_length (w : List Nat) : (rotWord w).length = w.length := by
  simp [rotWord]
  omega

theorem nextWord_length {w : List (List Nat)} (hlen : 8 ≤ w.length)
    (hw : ∀ x ∈ w, x.length = 4) : (nextWord w).length = 4 := by
  have hlp := hw _ (getD_mem ([] : List Nat) (show w.length - 1 < w.length by omega))
  have hlp8 := hw _ (getD_mem ([] : List Nat) (show w.length - 8 < w.length by omega))
  simp only [nextWord, zipXor_length]
  rw [hlp8]
  split
  · rw [zipXor_length]
    rw [show (subWord (rotWord (w.getD (w.length - 1) []))).length = 4 by
      simp only [subWord, List.length_map, rotWord_length, hlp]]
    simp
  · split
    · rw [show (subWord (w.getD (w.length - 1) [])).length = 4 by
        simp only [subWord, List.length_map, hlp]]
      simp
    · rw [hlp]
      simp

theorem expandWords_length (w : List (List Nat)) (n : Nat) :
    (expandWords w n).length = w.length + n := by
  induction n generalizing w with
  | zero => simp [expandWords]
  | succ n ih =>
    rw [expandWords, ih]
    simp
    omega

theorem expandWords_words {w : List (List Nat)} {n : Nat} (hlen : 8 ≤ w.length)
    (hw : ∀ x ∈ w, x.length = 4) : ∀ x ∈ expandWords w n, x.length = 4 := by
  induction n generalizing w with
  | zero => exact hw
  | succ n ih =>
    intro x hx
    rw [expandWords] at hx
    refine ih ?_ ?_ x hx
    · simp
      omega
    · intro y hy
      rcases List.mem_append.1 hy with h | h
      · exact hw y h
      · simp at h
        subst h
        exact nextWord_length hlen hw

theorem keyWords_length (key : List Nat) : (keyWords key).length = 60 := by
  unfold keyWords
  rw [expandWords_length]
  simp

theorem keyWords_words {key : List Nat} (hkey : key.length = 32) :
    ∀ x ∈ keyWords key, x.length = 4 := by
  apply expandWords_words
  · simp
  · intro x hx
    simp only [List.mem_map, List.mem_range] at hx
    obtain ⟨i, hi, rfl⟩ := hx
    simp [List.length_take, List.length_drop, hkey]
    omega

theorem flatten_length_16 {L : List (List Nat)} (hlen : L.length = 4)
    (h : ∀ x ∈ L, x.length = 4) : L.flatten.length = 16 := by
  rcases L with _ | ⟨a, _ | ⟨b, _ | ⟨c, _ | ⟨d, _ | ⟨e, t⟩⟩⟩⟩⟩ <;> simp_all

theorem roundKey_length {ws : List (List Nat)} {r : Nat} (h60 : ws.length = 60)
    (hw : ∀ x ∈ ws, x.length = 4) (hr : r ≤ 14) : (roundKey ws r).length = 16 := by
  unfold roundKey
  apply flatten_length_16
  · simp [List.length_take, List.length_drop, h60]
    omega
  · intro x hx
    exact hw x (List.drop_subset _ _ (List.take_subset _ _ hx))

theorem shiftRows_length (s : List Nat) : (shiftRows s).length = 16 := rfl

theorem aesBlock_length {key : List Nat} (hkey : key.length = 32) (block : List Nat) :
    (aesBlock key block).length = 16 := by
  have h2 : (roundKey (keyWords key) 14).length = 16 :=
    roundKey_length (keyWords_length key) (keyWords_words hkey) (by norm_num)
  show (zipXor (shiftRows (List.map sbox ((List.range 13).foldl
      (fun s r => aesRound (roundKey (keyWords key) (r + 1)) s)
      (zipXor block (roundKey (keyWords key) 0))))) (roundKey (keyWords key) 14)).length = 16
  rw [zipXor_length, shiftRows_length, h2]
  exact Nat.min_self 16

theorem ctrBlocks_length {key : List Nat} (hkey : key.length = 32) (j0 : Nat) :
    ∀ n, (ctrBlocks key j0 n).length = 16 * n := by
  intro n
  induction n with
  | zero => rfl
  | succ n ih =>
    unfold ctrBlocks at *
    rw [List.range_succ, List.flatMap_append, List.length_append, ih]
    simp [aesBlock_length hkey]
    omega

theorem keystream_length {key : List Nat} (iv : List Nat) (n : Nat) (hkey : key.length = 32) :
    (keystream key iv n).length = n := by
  unfold keystream
  rw [List.length_take, ctrBlocks_length hkey]
  have h1 := Nat.div_add_mod (n + 15) 16
  have h2 : (n + 15) % 16 < 16 := Nat.mod_lt _ (by norm_num)
  omega

/-! ## The GCM round trip -/

/-- Decryption inverts encryption: for any plaintext bytes, 32-byte key and IV,
`decryptPassword` recovers the plaintext from the triple `encryptPassword`
produced. -/
theorem mem_gcmTag_lt (key iv ct : List Nat) : ∀ x ∈ gcmTag key iv ct, x < 256 := by
  intro x hx
  simp only [gcmTag] at hx
  exact mem_zipXor_lt _ _ x hx

theorem decrypt_encrypt (password key iv : List Nat) (hkey : key.length = 32)
    (hpw : ∀ b ∈ password, b < 256) (hiv : ∀ b ∈ iv, b < 256) :
    decryptPassword (encryptPassword password key iv).encryptedPassword
      (encryptPassword password key iv).iv (encryptPassword password key iv).authTag key
      = some password := by
  have hks : (keystream key iv password.length).length = password.length :=
    keystream_length iv password.length hkey
  have hct : (zipXor password (keystream key iv password.length)).length = password.length := by
    rw [zipXor_length, hks, Nat.min_self]
  simp only [encryptPassword, decryptPassword]
  rw [hexDecode_hexEncode_of_lt (mem_zipXor_lt password _),
    hexDecode_hexEncode_of_lt hiv,
    hexDecode_hexEncode_of_lt (mem_gcmTag_lt key iv _)]
  rw [Option.some_bind, Option.some_bind, Option.some_bind]
  unfold tagCheck
  rw [if_pos rfl, hct]
  exact congrArg some (zipXor_cancel password _ (le_of_eq hks.symm) hpw)

/-! ## Lemmas about the document store -/

theorem lookupIn_setDoc_self (ps : List (String × PasswordDoc)) (id : String) (d : PasswordDoc) :
    lookupIn (setDoc ps id d) id = some d := by
  induction ps with
  | nil => simp [setDoc, lookupIn]
  | cons p rest ih =>
    rcases p with ⟨k, v⟩
    by_cases h : (k == id) = true
    · simp [setDoc, h, lookupIn]
    · simp only [setDoc, h, Bool.false_eq_true, if_false]
      simpa [lookupIn, List.find?, h] using ih

theorem lookupIn_setDoc_ne (ps : List (String × PasswordDoc)) {id id' : String}
    (d : PasswordDoc) (h : id' ≠ id) :
    lookupIn (setDoc ps id d) id' = lookupIn ps id' := by
  have hne : (id == id') = false := by
    simp [beq_eq_false_iff_ne]
    exact fun he => h he.symm
  induction ps with
  | nil => simp [setDoc, lookupIn, List.find?, hne]
  | cons p rest ih =>
    rcases p with ⟨k, v⟩
    by_cases hk : (k == id) = true
    · have hkid : k = id := by simpa using hk
      simp [setDoc, hk, lookupIn, List.find?, hne, hkid]
    · simp only [setDoc, hk, Bool.false_eq_true, if_false]
      by_cases hk' : (k == id') = true
      · simp [lookupIn, List.find?, hk']
      · simpa [lookupIn, List.find?, hk'] using ih

/-! ## Lemmas about `viewPassword` -/

/-- A reveal on a live (`pending`/`sent`) link with decryptable ciphertext:
the transaction commits the viewed/scrubbed record, the audit entry is
appended, and the plaintext is returned. -/
theorem viewPassword_success (key : List Nat) (st : Store) (id : String) (now : Nat)
    (ip : String) (d : PasswordDoc) (pw : List Nat)
    (hd : lookupDoc st id = some d) (hterm : d.status.isTerminal = false)
    (hdec : decryptPassword d.encryptedPassword d.iv d.authTag key = some pw)
    (hid : id ≠ "") :
    viewPassword key st id now ip true =
      ({ passwords := (setDoc st.passwords id
            { d with status := .viewed, viewedAt := some now, viewedFromIP := some ip,
                     encryptedPassword := "", iv := "", authTag := "" }),
          auditLogs := st.auditLogs ++
            [{ action := "view", targetId := some id, ip := ip, timestamp := now }] },
        .ok { password := pw, recipientName := d.recipientName }) := by
  simp [viewPassword, viewPasswordTx, hid, hd, hterm, hdec]

/-- A reveal on a terminal link fails with the failed-precondition error and
leaves the store untouched, for either audit outcome. -/
theorem viewPassword_terminal (key : List Nat) (st : Store) (id : String) (now : Nat)
    (ip : String) (aok : Bool) (d : PasswordDoc)
    (hd : lookupDoc st id = some d) (hterm : d.status.isTerminal = true) (hid : id ≠ "") :
    viewPassword key st id now ip aok =
      (st, .error (.failedPrecondition "This link has already been used")) := by
  simp [viewPassword, viewPasswordTx, hid, hd, hterm]

theorem viewPassword_decryptFail (key : List Nat) (st : Store) (id : String) (now : Nat)
    (ip : String) (aok : Bool) (d : PasswordDoc) (hid : id ≠ "")
    (hl : lookupDoc st id = some d) (ht : d.status.isTerminal = false)
    (hdec : decryptPassword d.encryptedPassword d.iv d.authTag key = none) :
    viewPassword key st id now ip aok =
      (st, .error (.internal "Failed to retrieve password")) := by
  simp [viewPassword, viewPasswordTx, hid, hl, ht, hdec]

/-- Iterated serialized reveals on a terminal link: all fail, nothing changes. -/
theorem revealTimes_terminal (key : List Nat) (st : Store) (id : String) (now : Nat)
    (ip : String) (d : PasswordDoc) (hd : lookupDoc st id = some d)
    (hterm : d.status.isTerminal = true) (hid : id ≠ "") :
    ∀ n, revealTimes key st id now ip n =
      (st, List.replicate n
        (.error (.failedPrecondition "This link has already been used"))) := by
  intro n
  induction n with
  | zero => rfl
  | succ n ih =>
    have hv := viewPassword_terminal key st id now ip true d hd hterm hid
    simp [revealTimes, hv, ih, List.replicate_succ]

/-! ## Claim C1 -/

/-- Claim C1 — exactly-once reveal under concurrency: concurrent `viewPassword`
calls on one link are serialized by the store's per-document transaction, so N
concurrent calls (N ≥ 2) on a `pending`/`sent` link execute as `revealTimes`;
exactly the first succeeds with the correct plaintext, the other N−1 fail with
the already-consumed error, and afterwards the stored encryptedPassword, iv
and authTag are empty and the status is `viewed`. -/
theorem C1_exactly_once_reveal (key : List Nat) (st : Store) (id : String) (now : Nat)
    (ip : String) (d : PasswordDoc) (pw : List Nat) (n : Nat)
    (hd : lookupDoc st id = some d)
    (hst : d.status = .pending ∨ d.status = .sent)
    (hdec : decryptPassword d.encryptedPassword d.iv d.authTag key = some pw)
    (hid : id ≠ "") (hn : 2 ≤ n) :
    revealTimes key st id now ip n =
      ({ passwords := (setDoc st.passwords id
            { d with status := .viewed, viewedAt := some now, viewedFromIP := some ip,
                     encryptedPassword := "", iv := "", authTag := "" }),
          auditLogs := st.auditLogs ++
            [{ action := "view", targetId := some id, ip := ip, timestamp := now }] },
        .ok { password := pw, recipientName := d.recipientName } ::
          List.replicate (n - 1)
            (.error (.failedPrecondition "This link has already been used"))) := by
  obtain ⟨m, rfl⟩ : ∃ m, n = m + 1 := ⟨n - 1, by omega⟩
  have hnotterm : d.status.isTerminal = false := by
    rcases hst with h | h <;> simp [h, Status.isTerminal]
  have hv := viewPassword_success key st id now ip d pw hd hnotterm hdec hid
  have hrest := revealTimes_terminal key
    ({ passwords := (setDoc st.passwords id
          { d with status := .viewed, viewedAt := some now, viewedFromIP := some ip,
                   encryptedPassword := "", iv := "", authTag := "" }),
        auditLogs := st.auditLogs ++
          [{ action := "view", targetId := some id, ip := ip, timestamp := now }] })
    id now ip
    { d with status := .viewed, viewedAt := some now, viewedFromIP := some ip,
             encryptedPassword := "", iv := "", authTag := "" }
    (by simp [lookupDoc, lookupIn_setDoc_self]) rfl hid m
  simp only [revealTimes, hv, hrest, Nat.add_sub_cancel]

theorem C1_exactly_once_reveal_witness :
    (revealTimes keyW stPendingW "id1" 3 "192.0.2.9" 2).2 =
      [.ok { password := pwW, recipientName := "Alice" },
       .error (.failedPrecondition "This link has already been used")] := by
  have h := C1_exactly_once_reveal keyW stPendingW "id1" 3 "192.0.2.9" docPendingW pwW 2 rfl
    (Or.inl rfl) (decrypt_encrypt pwW keyW ivW (by decide) (by decide) (by decide))
    (by decide) (by decide)
  rw [h]
  rfl

/-! ## Claim C2 -/

/-- Claim C2 — reveal correctness as an atomic read-modify-write: for every
stored link, `viewPassword` returns a plaintext exactly when the status is
`pending` or `sent` and the stored triple decrypts (which holds of every
triple the system writes, by the round trip); on success the committed
post-state has status `viewed`, the three ciphertext fields overwritten with
empty strings and view timestamp and source IP set, and the plaintext is
delivered with (not before) the committed transaction; for any terminal
status — including an already-scrubbed `viewed` link — the call fails with
the already-consumed error and the record is left unchanged. -/
theorem C2_reveal_read_modify_write (key : List Nat) (st : Store) (id : String) (now : Nat)
    (ip : String) (d : PasswordDoc) (hd : lookupDoc st id = some d) (hid : id ≠ "") :
    (∀ pw, decryptPassword d.encryptedPassword d.iv d.authTag key = some pw →
      (d.status = .pending ∨ d.status = .sent) →
      viewPassword key st id now ip true =
        ({ passwords := (setDoc st.passwords id
              { d with status := .viewed, viewedAt := some now, viewedFromIP := some ip,
                       encryptedPassword := "", iv := "", authTag := "" }),
            auditLogs := st.auditLogs ++
              [{ action := "view", targetId := some id, ip := ip, timestamp := now }] },
          .ok { password := pw, recipientName := d.recipientName })) ∧
    (d.status.isTerminal = true →
      viewPassword key st id now ip true =
        (st, .error (.failedPrecondition "This link has already been used"))) ∧
    ((∃ r, (viewPassword key st id now ip true).2 = .ok r) ↔
      ((d.status = .pending ∨ d.status = .sent) ∧
        ∃ pw, decryptPassword d.encryptedPassword d.iv d.authTag key = some pw)) := by
  refine ⟨?_, ?_, ?_⟩
  · intro pw hdec hst
    have hnotterm : d.status.isTerminal = false := by
      rcases hst with h | h <;> simp [h, Status.isTerminal]
    exact viewPassword_success key st id now ip d pw hd hnotterm hdec hid
  · intro hterm
    exact viewPassword_terminal key st id now ip true d hd hterm hid
  · constructor
    · rintro ⟨r, hr⟩
      by_cases hterm : d.status.isTerminal = true
      · rw [viewPassword_terminal key st id now ip true d hd hterm hid] at hr
        simp at hr
      · have hnt : d.status.isTerminal = false := by simpa using hterm
        have hst : d.status = .pending ∨ d.status = .sent := by
          cases hs : d.status
          · exact Or.inl rfl
          · exact Or.inr rfl
          · simp [hs, Status.isTerminal] at hnt
          · simp [hs, Status.isTerminal] at hnt
          · simp [hs, Status.isTerminal] at hnt
        rcases hdec : decryptPassword d.encryptedPassword d.iv d.authTag key with _ | pw
        · rw [viewPassword_decryptFail key st id now ip true d hid hd hnt hdec] at hr
          simp at hr
        · exact ⟨hst, pw, rfl⟩
    · rintro ⟨hst, pw, hdec⟩
      have hnotterm : d.status.isTerminal = false := by
        rcases hst with h | h <;> simp [h, Status.isTerminal]
      exact ⟨{ password := pw, recipientName := d.recipientName },
        by rw [viewPassword_success key st id now ip d pw hd hnotterm hdec hid]⟩

theorem C2_reveal_read_modify_write_witness :
    (viewPassword keyW stPendingW "id1" 3 "192.0.2.9" true).2 =
      .ok { password := pwW, recipientName := "Alice" } := by
  have h := (C2_reveal_read_modify_write keyW stPendingW "id1" 3 "192.0.2.9" docPendingW
    rfl (by decide)).1 pwW
    (decrypt_encrypt pwW keyW ivW (by decide) (by decide) (by decide)) (Or.inl rfl)
  rw [h]
  rfl

/-! ## Claim C3 -/

/-- Claim C3 — round-trip crypto: for every plaintext byte string P, every valid
256-bit (32-byte) key K and every IV, `decryptPassword` applied to the
(encryptedPassword, iv, authTag) triple produced by `encryptPassword P K`,
with the same key K, returns P. -/
theorem C3_round_trip_crypto (password key iv : List Nat) (hkey : key.length = 32)
    (hpw : ∀ b ∈ password, b < 256) (hiv : ∀ b ∈ iv, b < 256) :
    decryptPassword (encryptPassword password key iv).encryptedPassword
      (encryptPassword password key iv).iv (encryptPassword password key iv).authTag key
      = some password :=
  decrypt_encrypt password key iv hkey hpw hiv

theorem C3_round_trip_crypto_witness :
    keyW.length = 32 ∧
    decryptPassword (encryptPassword pwW keyW ivW).encryptedPassword
      (encryptPassword pwW keyW ivW).iv (encryptPassword pwW keyW ivW).authTag keyW
      = some pwW :=
  ⟨by decide, C3_round_trip_crypto pwW keyW ivW (by decide) (by decide) (by decide)⟩

/-! ## Claim C5 -/

/-- Claim C5 (counterexample) — the revoke operation, invoked on a link that is
already terminal (`viewed`), succeeds and flips the status to `revoked` and
appends no audit record, instead of failing with an InvalidStateError and
leaving the record unchanged as the claim requires. -/
theorem C5_revoke_guard_counterexample :
    docViewedW.status.isTerminal = true ∧
    (handleRevoke stViewedW "idB").2 = .ok () ∧
    (handleRevoke stViewedW "idB").1.auditLogs = stViewedW.auditLogs ∧
    (lookupDoc (handleRevoke stViewedW "idB").1 "idB").map PasswordDoc.status =
      some .revoked :=
  ⟨rfl, rfl, rfl, rfl⟩

/-- Claim C5 (amended) — the staff revoke action unconditionally sets the status
of any existing link to `revoked`, whatever its current status (it never fails
with an InvalidStateError), and emits no audit record. -/
theorem C5_revoke_guard_amended (st : Store) (id : String) (d : PasswordDoc)
    (hd : lookupDoc st id = some d) :
    handleRevoke st id =
      ({ st with passwords := (setDoc st.passwords id { d with status := .revoked }) },
        .ok ()) ∧
    (handleRevoke st id).1.auditLogs = st.auditLogs := by
  constructor
  · simp [handleRevoke, hd]
  · simp [handleRevoke, hd]

theorem C5_revoke_guard_witness :
    handleRevoke stViewedW "idB" =
      ({ stViewedW with passwords := (setDoc stViewedW.passwords "idB"
          { docViewedW with status := .revoked }) }, .ok ()) :=
  (C5_revoke_guard_amended stViewedW "idB" docViewedW rfl).1

/-! ## Claim C6 -/

/-- Claim C6 (counterexample) — the backend performs no `@` check: a creation
request whose recipient email `"nobody"` contains no `@` is accepted, creates a
pending link and returns success, instead of being rejected with a validation
error. -/
theorem C6_creation_validation_counterexample :
    ('@' ∉ "nobody".data) ∧
    (createPasswordLink keyW usersW (some "u1") reqNoAt "idN" ivW 7 "198.51.100.4" true true
        emptyStore).2 =
      .ok { id := "idN", password := [120], link := appUrl ++ "/p/" ++ "idN",
            recipientEmail := "nobody", recipientName := "" } ∧
    (lookupDoc (createPasswordLink keyW usersW (some "u1") reqNoAt "idN" ivW 7 "198.51.100.4"
        true true emptyStore).1 "idN").map PasswordDoc.status = some .pending :=
  ⟨by decide, rfl, rfl⟩

/-- Claim C6 (amended) — if the recipient email is missing or the secret is
missing/empty, creation is rejected with a validation error and no link
record, audit record or email side effect is produced (the store is returned
unchanged); no check of `@`-containment is performed. -/
theorem C6_creation_validation_amended (key : List Nat) (users : List (String × UserRec))
    (uid : String) (req : CreateReq) (linkId : String) (ivb : List Nat) (now : Nat)
    (ip : String) (aok eok : Bool) (st : Store)
    (hbad : req.recipientEmail = "" ∨ req.password = []) :
    createPasswordLink key users (some uid) req linkId ivb now ip aok eok st =
      (st, .error (.invalidArgument "Email and password are required")) := by
  simp [createPasswordLink, hbad]

theorem C6_creation_validation_witness :
    createPasswordLink keyW usersW (some "u1") reqEmptyW "idE" ivW 7 "198.51.100.4" true true
      emptyStore = (emptyStore, .error (.invalidArgument "Email and password are required")) :=
  C6_creation_validation_amended keyW usersW "u1" reqEmptyW "idE" ivW 7 "198.51.100.4" true
    true emptyStore (Or.inl rfl)

/-! ## Claim C8 -/

/-- The audit-failure path of a committed reveal: the transaction's writes
persist but the caller receives an internal error instead of the plaintext. -/
theorem viewPassword_auditFail (key : List Nat) (st : Store) (id : String) (now : Nat)
    (ip : String) (d : PasswordDoc) (pw : List Nat)
    (hd : lookupDoc st id = some d) (hterm : d.status.isTerminal = false)
    (hdec : decryptPassword d.encryptedPassword d.iv d.authTag key = some pw)
    (hid : id ≠ "") :
    viewPassword key st id now ip false =
      ({ st with passwords := (setDoc st.passwords id
          { d with status := .viewed, viewedAt := some now, viewedFromIP := some ip,
                   encryptedPassword := "", iv := "", authTag := "" }) },
        .error (.internal "Failed to retrieve password")) := by
  simp [viewPassword, viewPasswordTx, hid, hd, hterm, hdec]

/-- Claim C8 (counterexample) — a reveal whose transaction has committed (the
link is now `viewed` with scrubbed ciphertext) does NOT return the plaintext
when the subsequent audit write fails: the handler's catch-all rethrows an
internal error, contradicting the claim that the success response is still
returned. -/
theorem C8_audit_nonblocking_counterexample :
    (viewPassword keyW stPendingW "id1" 3 "192.0.2.9" false).2 =
      .error (.internal "Failed to retrieve password") ∧
    (lookupDoc (viewPassword keyW stPendingW "id1" 3 "192.0.2.9" false).1 "id1").map
      PasswordDoc.status = some .viewed ∧
    (lookupDoc (viewPassword keyW stPendingW "id1" 3 "192.0.2.9" false).1 "id1").map
      PasswordDoc.encryptedPassword = some "" := by
  have h := viewPassword_auditFail keyW stPendingW "id1" 3 "192.0.2.9" docPendingW pwW rfl
    rfl (decrypt_encrypt pwW keyW ivW (by decide) (by decide) (by decide)) (by decide)
  refine ⟨?_, ?_, ?_⟩ <;> rw [h] <;> rfl

/-- Claim C8 (amended) — for each primary operation (reveal, create,
regenerate, send email), a failure of the awaited audit append is rethrown as
an internal error even though the operation's state mutations have already
been performed: a committed reveal leaves the link viewed and scrubbed yet
reports failure, a creation leaves the new pending document in place, a
regeneration leaves both its mutations visible, and a send-email leaves the
unguarded status update written — in each case with no audit entry appended;
only the email side effect's failure is swallowed (shown for creation, which
still returns its success response). -/
theorem C8_audit_failure_surfaces (key : List Nat) (st : Store) (id : String) (now : Nat)
    (ip : String) (d : PasswordDoc) (pw : List Nat)
    (hd : lookupDoc st id = some d) (hterm : d.status.isTerminal = false)
    (hdec : decryptPassword d.encryptedPassword d.iv d.authTag key = some pw)
    (hid : id ≠ "") :
    viewPassword key st id now ip false =
      ({ st with passwords := (setDoc st.passwords id
          { d with status := .viewed, viewedAt := some now, viewedFromIP := some ip,
                   encryptedPassword := "", iv := "", authTag := "" }) },
        .error (.internal "Failed to retrieve password")) ∧
    (viewPassword key st id now ip false).1.auditLogs = st.auditLogs ∧
    (∀ (users : List (String × UserRec)) (uid : String) (u : UserRec) (req : CreateReq)
        (linkId : String) (ivb : List Nat) (eok : Bool),
      (users.find? (fun p => p.fst == uid)).map (fun p => p.snd) = some u →
      (u.role = "admin" ∨ u.role = "technician") →
      req.recipientEmail ≠ "" → req.password ≠ [] →
      (createPasswordLink key users (some uid) req linkId ivb now ip false eok st).2 =
          .error (.internal "Failed to create password link") ∧
        (lookupDoc (createPasswordLink key users (some uid) req linkId ivb now ip false eok
            st).1 linkId).map PasswordDoc.status = some .pending ∧
        (createPasswordLink key users (some uid) req linkId ivb now ip false eok
            st).1.auditLogs = st.auditLogs) ∧
    (∀ (users : List (String × UserRec)) (uid : String) (u : UserRec) (o nid : String)
        (pw2 ivb : List Nat) (orig : PasswordDoc),
      (users.find? (fun p => p.fst == uid)).map (fun p => p.snd) = some u →
      (u.role = "admin" ∨ u.role = "technician") →
      o ≠ "" → pw2 ≠ [] → lookupDoc st o = some orig → nid ≠ o →
      (regeneratePasswordLink key users (some uid) st o pw2 nid ivb now ip false).2 =
          .error (.internal "Failed to regenerate password link") ∧
        lookupDoc (regeneratePasswordLink key users (some uid) st o pw2 nid ivb now ip
            false).1 o = some { orig with status := .revoked, regeneratedTo := some nid } ∧
        (regeneratePasswordLink key users (some uid) st o pw2 nid ivb now ip
            false).1.auditLogs = st.auditLogs) ∧
    (∀ (users : List (String × UserRec)) (uid : String) (u : UserRec) (pid : String)
        (dp : PasswordDoc),
      (users.find? (fun p => p.fst == uid)).map (fun p => p.snd) = some u →
      (u.role = "admin" ∨ u.role = "technician") →
      pid ≠ "" → lookupDoc st pid = some dp →
      sendPasswordEmail users (some uid) st pid now ip true false =
        ({ st with passwords := (setDoc st.passwords pid
            { dp with status := .sent, emailSent := true, emailSentAt := some now }) },
          .error (.internal "Failed to send email"))) ∧
    (∀ (users : List (String × UserRec)) (uid : String) (u : UserRec) (req : CreateReq)
        (linkId : String) (ivb : List Nat),
      (users.find? (fun p => p.fst == uid)).map (fun p => p.snd) = some u →
      (u.role = "admin" ∨ u.role = "technician") →
      req.recipientEmail ≠ "" → req.password ≠ [] →
      (createPasswordLink key users (some uid) req linkId ivb now ip true false st).2 =
        .ok { id := linkId, password := req.password, link := appUrl ++ "/p/" ++ linkId,
              recipientEmail := req.recipientEmail,
              recipientName := req.recipientName }) := by
  have hmain := viewPassword_auditFail key st id now ip d pw hd hterm hdec hid
  refine ⟨hmain, by rw [hmain], ?_, ?_, ?_, ?_⟩
  · intro users uid u req linkId ivb eok hu hrole hre hrp
    have hcond : ¬(req.recipientEmail = "" ∨ req.password = []) := by simp [hre, hrp]
    have hrole2 : ¬(u.role ≠ "admin" ∧ u.role ≠ "technician") := by
      rcases hrole with h | h <;> simp [h]
    refine ⟨?_, ?_, ?_⟩ <;>
      simp [createPasswordLink, hcond, hu, hrole2, lookupDoc, lookupIn_setDoc_self]
  · intro users uid u o nid pw2 ivb orig hu hrole hoid hpw2 horig hnido
    have hcond : ¬(o = "" ∨ pw2 = []) := by simp [hoid, hpw2]
    have hrole2 : ¬(u.role ≠ "admin" ∧ u.role ≠ "technician") := by
      rcases hrole with h | h <;> simp [h]
    have horig2 : lookupIn st.passwords o = some orig := horig
    have hne : o ≠ nid := fun he => hnido he.symm
    refine ⟨?_, ?_, ?_⟩
    · simp [regeneratePasswordLink, hcond, hu, hrole2, horig]
    · simp [regeneratePasswordLink, hcond, hu, hrole2, horig2, lookupDoc,
        lookupIn_setDoc_ne _ _ hne, lookupIn_setDoc_self]
    · simp [regeneratePasswordLink, hcond, hu, hrole2, horig]
  · intro users uid u pid dp hu hrole hpid hdp
    have hrole2 : ¬(u.role ≠ "admin" ∧ u.role ≠ "technician") := by
      rcases hrole with h | h <;> simp [h]
    simp [sendPasswordEmail, hu, hrole2, hpid, hdp]
  · intro users uid u req linkId ivb hu hrole hre hrp
    have hcond : ¬(req.recipientEmail = "" ∨ req.password = []) := by simp [hre, hrp]
    have hrole2 : ¬(u.role ≠ "admin" ∧ u.role ≠ "technician") := by
      rcases hrole with h | h <;> simp [h]
    simp [createPasswordLink, hcond, hu, hrole2]

theorem C8_audit_failure_surfaces_witness :
    viewPassword keyW stPendingW "id1" 3 "192.0.2.9" false =
      ({ stPendingW with passwords := (setDoc stPendingW.passwords "id1"
          { docPendingW with status := .viewed, viewedAt := some 3,
                             viewedFromIP := some "192.0.2.9", encryptedPassword := "",
                             iv := "", authTag := "" }) },
        .error (.internal "Failed to retrieve password")) :=
  (C8_audit_failure_surfaces keyW stPendingW "id1" 3 "192.0.2.9" docPendingW pwW rfl rfl
    (decrypt_encrypt pwW keyW ivW (by decide) (by decide) (by decide)) (by decide)).1

/-! ## Claim C9 -/

/-- A guard failure of `regeneratePasswordLink` — any error other than the
post-commit `internal` one — precedes its transaction, so it comes with the
untouched store. -/
theorem regen_error_unchanged (key : List Nat) (users : List (String × UserRec))
    (auth : Option String) (st : Store) (o : String) (pw : List Nat) (nid : String)
    (ivb : List Nat) (now : Nat) (ip : String) (aok : Bool) (e : FnError)
    (he : (regeneratePasswordLink key users auth st o pw nid ivb now ip aok).2 = .error e)
    (hne : ∀ m, e ≠ .internal m) :
    (regeneratePasswordLink key users auth st o pw nid ivb now ip aok).1 = st := by
  rcases auth with _ | uid
  · rfl
  · by_cases h1 : (o = "" ∨ pw = [])
    · simp [regeneratePasswordLink, h1]
    · rcases hf : (users.find? (fun p => p.fst == uid)).map (fun p => p.snd) with _ | u
      · simp [regeneratePasswordLink, h1, hf]
      · by_cases h2 : (u.role ≠ "admin" ∧ u.role ≠ "technician")
        · simp [regeneratePasswordLink, h1, hf, h2]
        · rcases hl : lookupDoc st o with _ | orig
          · simp [regeneratePasswordLink, h1, hf, h2, hl]
          · exfalso
            cases aok
            · simp [regeneratePasswordLink, h1, hf, h2, hl] at he
              exact hne _ he.symm
            · simp [regeneratePasswordLink, h1, hf, h2, hl] at he

/-- Claim C9 (counterexample) — the audit `add` that follows the committed
transaction is awaited inside the `try`: when it rejects, the call fails with
an internal error although both mutations are already visible (the original is
revoked with the forward pointer, the replacement exists as pending), so a
partway-failing regenerate does not leave the store free of the mutations. -/
theorem C9_regeneration_atomicity_counterexample :
    (regeneratePasswordLink keyW usersW (some "u1") stPendingW "id1" [99] "id2" ivW 8
        "198.51.100.4" false).2 =
      .error (.internal "Failed to regenerate password link") ∧
    (lookupDoc (regeneratePasswordLink keyW usersW (some "u1") stPendingW "id1" [99] "id2"
        ivW 8 "198.51.100.4" false).1 "id1").map PasswordDoc.status = some .revoked ∧
    (lookupDoc (regeneratePasswordLink keyW usersW (some "u1") stPendingW "id1" [99] "id2"
        ivW 8 "198.51.100.4" false).1 "id1").map PasswordDoc.regeneratedTo =
      some (some "id2") ∧
    (lookupDoc (regeneratePasswordLink keyW usersW (some "u1") stPendingW "id1" [99] "id2"
        ivW 8 "198.51.100.4" false).1 "id2").map PasswordDoc.status = some .pending ∧
    (lookupDoc (regeneratePasswordLink keyW usersW (some "u1") stPendingW "id1" [99] "id2"
        ivW 8 "198.51.100.4" false).1 "id2").map PasswordDoc.regeneratedFrom =
      some (some "id1") :=
  ⟨rfl, rfl, rfl, rfl, rfl⟩

/-- Claim C9 (amended) — after `regenerate(originalId, newPassword)` succeeds,
the original record is `revoked` with `regeneratedTo = newId` and the new
record is `pending` with `regeneratedFrom = originalId`; the two document
mutations are committed by one atomic transaction, and every guard failure
(unauthenticated, invalid input, permission denied, unknown original) leaves
neither mutation visible; however, when the awaited post-commit audit write
fails, the call returns an internal error while both mutations remain
visible. -/
theorem C9_regeneration_atomicity_amended (key : List Nat)
    (users : List (String × UserRec)) (uid : String) (u : UserRec) (st : Store)
    (originalId : String) (password : List Nat) (newLinkId : String) (ivb : List Nat)
    (now : Nat) (ip : String) (orig : PasswordDoc)
    (hu : (users.find? (fun p => p.fst == uid)).map (fun p => p.snd) = some u)
    (hrole : u.role = "admin" ∨ u.role = "technician")
    (ho : lookupDoc st originalId = some orig)
    (hid : originalId ≠ "") (hpw : password ≠ []) (hnew : newLinkId ≠ originalId) :
    (regeneratePasswordLink key users (some uid) st originalId password newLinkId ivb now
        ip true).2 =
      .ok { id := newLinkId, password := password, link := appUrl ++ "/p/" ++ newLinkId,
            recipientEmail := orig.recipientEmail, recipientName := orig.recipientName } ∧
    lookupDoc (regeneratePasswordLink key users (some uid) st originalId password newLinkId
        ivb now ip true).1 originalId =
      some { orig with status := .revoked, regeneratedTo := some newLinkId } ∧
    lookupDoc (regeneratePasswordLink key users (some uid) st originalId password newLinkId
        ivb now ip true).1 newLinkId =
      some { encryptedPassword := (encryptPassword password key ivb).encryptedPassword,
             iv := (encryptPassword password key ivb).iv,
             authTag := (encryptPassword password key ivb).authTag,
             recipientEmail := orig.recipientEmail, recipientName := orig.recipientName,
             notes := orig.notes, createdBy := uid, createdByEmail := u.email,
             createdAt := now, status := .pending, emailSent := false,
             source := "dashboard", regeneratedFrom := some originalId } ∧
    (regeneratePasswordLink key users (some uid) st originalId password newLinkId ivb now
        ip false).2 = .error (.internal "Failed to regenerate password link") ∧
    lookupDoc (regeneratePasswordLink key users (some uid) st originalId password newLinkId
        ivb now ip false).1 originalId =
      some { orig with status := .revoked, regeneratedTo := some newLinkId } ∧
    (lookupDoc (regeneratePasswordLink key users (some uid) st originalId password newLinkId
        ivb now ip false).1 newLinkId).map PasswordDoc.status = some .pending ∧
    (regeneratePasswordLink key users (some uid) st originalId password newLinkId ivb now
        ip false).1.auditLogs = st.auditLogs ∧
    (∀ (auth2 : Option String) (st2 : Store) (o2 : String) (pw2 : List Nat) (nid2 : String)
        (ivb2 : List Nat) (now2 : Nat) (ip2 : String) (aok2 : Bool) (e : FnError),
      (regeneratePasswordLink key users auth2 st2 o2 pw2 nid2 ivb2 now2 ip2 aok2).2 =
        .error e →
      (∀ m, e ≠ .internal m) →
      (regeneratePasswordLink key users auth2 st2 o2 pw2 nid2 ivb2 now2 ip2 aok2).1 = st2) := by
  have hcond : ¬(originalId = "" ∨ password = []) := by simp [hid, hpw]
  have hrole2 : ¬(u.role ≠ "admin" ∧ u.role ≠ "technician") := by
    rcases hrole with h | h <;> simp [h]
  have hne : originalId ≠ newLinkId := Ne.symm hnew
  have ho' : lookupIn st.passwords originalId = some orig := ho
  refine ⟨?_, ?_, ?_, ?_, ?_, ?_, ?_,
    fun auth2 st2 o2 pw2 nid2 ivb2 now2 ip2 aok2 e he hnei =>
      regen_error_unchanged key users auth2 st2 o2 pw2 nid2 ivb2 now2 ip2 aok2 e he hnei⟩
  · simp [regeneratePasswordLink, hcond, hu, hrole2, ho]
  · simp [regeneratePasswordLink, hcond, hu, hrole2, ho', lookupDoc,
      lookupIn_setDoc_ne _ _ hne, lookupIn_setDoc_self]
  · simp [regeneratePasswordLink, hcond, hu, hrole2, ho', lookupDoc, lookupIn_setDoc_self]
  · simp [regeneratePasswordLink, hcond, hu, hrole2, ho]
  · simp [regeneratePasswordLink, hcond, hu, hrole2, ho', lookupDoc,
      lookupIn_setDoc_ne _ _ hne, lookupIn_setDoc_self]
  · simp [regeneratePasswordLink, hcond, hu, hrole2, ho', lookupDoc, lookupIn_setDoc_self]
  · simp [regeneratePasswordLink, hcond, hu, hrole2, ho]

theorem C9_regeneration_atomicity_witness :
    (regeneratePasswordLink keyW usersW (some "u1") stPendingW "id1" [99] "id2" ivW 8
        "198.51.100.4" true).2 =
      .ok { id := "id2", password := [99], link := appUrl ++ "/p/" ++ "id2",
            recipientEmail := docPendingW.recipientEmail,
            recipientName := docPendingW.recipientName } :=
  (C9_regeneration_atomicity_amended keyW usersW "u1" ⟨"tech@example.org", "technician"⟩
    stPendingW "id1" [99] "id2" ivW 8 "198.51.100.4" docPendingW
    rfl (Or.inr rfl) rfl (by decide) (by decide) (by decide)).1

/-! ## Claim C10 -/

/-- Claim C10 (counterexample) — `checkPasswordLink` collapses the unknown-link
and consumed-link conditions into the same response, but the failure outcomes
of `viewPassword` are distinguishable: an unknown id yields the `not-found`
error while a viewed link yields the `failed-precondition` error, so a caller
can tell which condition occurred, contrary to the claim. -/
theorem C10_no_disclosure_counterexample :
    checkPasswordLink stViewedW "idA" = checkPasswordLink stViewedW "idB" ∧
    (viewPassword keyW stViewedW "idA" 1 "203.0.113.5" true).2 =
      .error (.notFound "Password link not found") ∧
    (viewPassword keyW stViewedW "idB" 1 "203.0.113.5" true).2 =
      .error (.failedPrecondition "This link has already been used") ∧
    (viewPassword keyW stViewedW "idA" 1 "203.0.113.5" true).2 ≠
      (viewPassword keyW stViewedW "idB" 1 "203.0.113.5" true).2 := by
  refine ⟨rfl, rfl, rfl, ?_⟩
  intro h
  rw [show (viewPassword keyW stViewedW "idA" 1 "203.0.113.5" true).2 =
      .error (.notFound "Password link not found") from rfl] at h
  rw [show (viewPassword keyW stViewedW "idB" 1 "203.0.113.5" true).2 =
      .error (.failedPrecondition "This link has already been used") from rfl] at h
  simp at h

/-- Claim C10 (amended) — `checkPasswordLink` returns the identical
`{valid: false}` response for an unknown id and for a terminal-state link, so
the recipient-facing check is indistinguishable; the reveal failure however
distinguishes the two conditions: `not-found` for an unknown id versus
`failed-precondition` for any terminal link. -/
theorem C10_no_disclosure_amended (key : List Nat) (st : Store) (idU idT : String)
    (d : PasswordDoc) (now : Nat) (ip : String) (hU : lookupDoc st idU = none)
    (hT : lookupDoc st idT = some d) (hterm : d.status.isTerminal = true)
    (hiU : idU ≠ "") (hiT : idT ≠ "") :
    checkPasswordLink st idU = .ok { valid := false, recipientName := none } ∧
    checkPasswordLink st idT = .ok { valid := false, recipientName := none } ∧
    (viewPassword key st idU now ip true).2 = .error (.notFound "Password link not found") ∧
    (viewPassword key st idT now ip true).2 =
      .error (.failedPrecondition "This link has already been used") := by
  refine ⟨?_, ?_, ?_, ?_⟩
  · simp [checkPasswordLink, hU, hiU]
  · simp [checkPasswordLink, hT, hterm, hiT]
  · simp [viewPassword, viewPasswordTx, hU, hiU]
  · simp [viewPassword, viewPasswordTx, hT, hterm, hiT]

/-! ## Claim C4 -/

theorem isTerminal_ne {s : Status} (h : s.isTerminal = true) :
    s ≠ .pending ∧ s ≠ .sent := by
  cases s <;> simp_all [Status.isTerminal]

theorem viewPassword_empty (key : List Nat) (st : Store) (now : Nat) (ip : String)
    (aok : Bool) :
    viewPassword key st "" now ip aok = (st, .error (.invalidArgument "Link ID is required")) :=
  rfl

theorem viewPassword_notFound (key : List Nat) (st : Store) (id : String) (now : Nat)
    (ip : String) (aok : Bool) (hid : id ≠ "") (hl : lookupDoc st id = none) :
    viewPassword key st id now ip aok = (st, .error (.notFound "Password link not found")) := by
  simp [viewPassword, viewPasswordTx, hid, hl]

/-- A reveal aimed at a different document never changes what is stored under
`id`. -/
theorem viewPassword_lookup_other (key : List Nat) (st : Store) (id' id : String)
    (now : Nat) (ip : String) (aok : Bool) (h : id ≠ id') :
    lookupDoc (viewPassword key st id' now ip aok).1 id = lookupDoc st id := by
  by_cases hid : id' = ""
  · subst hid
    rw [viewPassword_empty]
  · rcases hl : lookupDoc st id' with _ | d
    · rw [viewPassword_notFound key st id' now ip aok hid hl]
    · by_cases ht : d.status.isTerminal = true
      · rw [viewPassword_terminal key st id' now ip aok d hl ht hid]
      · have ht' : d.status.isTerminal = false := by simpa using ht
        rcases hdec : decryptPassword d.encryptedPassword d.iv d.authTag key with _ | pw
        · rw [viewPassword_decryptFail key st id' now ip aok d hid hl ht' hdec]
        · cases aok
          · rw [viewPassword_auditFail key st id' now ip d pw hl ht' hdec hid]
            show lookupIn (setDoc st.passwords id' _) id = lookupIn st.passwords id
            exact lookupIn_setDoc_ne _ _ h
          · rw [viewPassword_success key st id' now ip d pw hl ht' hdec hid]
            show lookupIn (setDoc st.passwords id' _) id = lookupIn st.passwords id
            exact lookupIn_setDoc_ne _ _ h

theorem handleRevoke_lookup_other (st : Store) (id' id : String) (h : id ≠ id') :
    lookupDoc (handleRevoke st id').1 id = lookupDoc st id := by
  rcases hl : lookupDoc st id' with _ | d <;>
    have hl' : lookupIn st.passwords id' = _ := hl
  · simp [handleRevoke, lookupDoc, hl']
  · simp [handleRevoke, lookupDoc, hl', lookupIn_setDoc_ne _ _ h]

theorem handleRevoke_self (st : Store) (id : String) (d : PasswordDoc)
    (hd : lookupDoc st id = some d) :
    lookupDoc (handleRevoke st id).1 id = some { d with status := .revoked } := by
  have hd' : lookupIn st.passwords id = some d := hd
  simp [handleRevoke, lookupDoc, hd', lookupIn_setDoc_self]

theorem createPasswordLink_lookup_other (key : List Nat) (users : List (String × UserRec))
    (auth : Option String) (req : CreateReq) (linkId : String) (ivb : List Nat) (now : Nat)
    (ip : String) (aok eok : Bool) (st : Store) (id : String) (h : id ≠ linkId) :
    lookupDoc (createPasswordLink key users auth req linkId ivb now ip aok eok st).1 id =
      lookupDoc st id := by
  rcases auth with _ | uid
  · rfl
  · by_cases h1 : (req.recipientEmail = "" ∨ req.password = [])
    · simp [createPasswordLink, h1]
    · rcases hf : (users.find? (fun p => p.fst == uid)).map (fun p => p.snd) with _ | u
      · simp [createPasswordLink, h1, hf]
      · by_cases h2 : (u.role ≠ "admin" ∧ u.role ≠ "technician")
        · simp [createPasswordLink, h1, hf, h2]
        · cases aok
          · simp [createPasswordLink, h1, hf, h2, lookupDoc, lookupIn_setDoc_ne _ _ h]
          · by_cases h3 : (req.sendNotification = true ∧ eok = true)
            · simp [createPasswordLink, h1, hf, h2, h3, lookupDoc,
                lookupIn_setDoc_ne _ _ h]
            · simp [createPasswordLink, h1, hf, h2, h3, lookupDoc,
                lookupIn_setDoc_ne _ _ h]

/-- Regeneration keeps a terminal link terminal: it either leaves it alone or
(as the regenerated original) marks it revoked; the fresh uuid `nid` differs
from it. -/
theorem regen_preserves_terminal (key : List Nat) (users : List (String × UserRec))
    (auth : Option String) (st : Store) (o : String) (pw : List Nat) (nid : String)
    (ivb : List Nat) (now : Nat) (ip : String) (id : String) (d : PasswordDoc)
    (hnid : nid ≠ id) (hd : lookupDoc st id = some d)
    (hterm : d.status.isTerminal = true) :
    ∃ d', lookupDoc (regeneratePasswordLink key users auth st o pw nid ivb now ip true).1
      id = some d' ∧ d'.status.isTerminal = true := by
  rcases auth with _ | uid
  · exact ⟨d, hd, hterm⟩
  · by_cases h1 : (o = "" ∨ pw = [])
    · exact ⟨d, by simp [regeneratePasswordLink, h1, hd], hterm⟩
    · rcases hf : (users.find? (fun p => p.fst == uid)).map (fun p => p.snd) with _ | u
      · exact ⟨d, by simp [regeneratePasswordLink, h1, hf, hd], hterm⟩
      · by_cases h2 : (u.role ≠ "admin" ∧ u.role ≠ "technician")
        · exact ⟨d, by simp [regeneratePasswordLink, h1, hf, h2, hd], hterm⟩
        · by_cases ho : o = id
          · subst ho
            refine ⟨{ d with status := .revoked, regeneratedTo := some nid }, ?_, rfl⟩
            have hd' : lookupIn st.passwords o = some d := hd
            simp [regeneratePasswordLink, h1, hf, h2, hd', lookupDoc,
              lookupIn_setDoc_ne _ _ (Ne.symm hnid), lookupIn_setDoc_self]
          · rcases hl : lookupDoc st o with _ | orig <;>
              have hl' : lookupIn st.passwords o = _ := hl
            · refine ⟨d, ?_, hterm⟩
              simp [regeneratePasswordLink, h1, hf, h2, lookupDoc, hl']
              exact hd
            · refine ⟨d, ?_, hterm⟩
              have hio : id ≠ o := fun he => ho he.symm
              simp [regeneratePasswordLink, h1, hf, h2, hl', lookupDoc,
                lookupIn_setDoc_ne _ _ (Ne.symm hnid), lookupIn_setDoc_ne _ _ hio]
              exact hd

/-- One safe operation keeps a terminal link terminal. -/
theorem applyOp_preserves_terminal (key : List Nat) (users : List (String × UserRec))
    (actor : Option String) (st : Store) (op : StoreOp) (id : String) (d : PasswordDoc)
    (hsafe : opSafeFor id op) (hd : lookupDoc st id = some d)
    (hterm : d.status.isTerminal = true) :
    ∃ d', lookupDoc (applyOp key users actor st op) id = some d' ∧
      d'.status.isTerminal = true := by
  cases op with
  | reveal id' now ip =>
    by_cases h : id = id'
    · subst h
      by_cases hid : id = ""
      · exact ⟨d, by simpa [applyOp, viewPassword, viewPasswordTx, hid] using hd, hterm⟩
      · refine ⟨d, ?_, hterm⟩
        show lookupDoc (viewPassword key st id now ip true).1 id = some d
        rw [viewPassword_terminal key st id now ip true d hd hterm hid]
        exact hd
    · refine ⟨d, ?_, hterm⟩
      show lookupDoc (viewPassword key st id' now ip true).1 id = some d
      rw [viewPassword_lookup_other key st id' id now ip true h]
      exact hd
  | revoke id' =>
    by_cases h : id = id'
    · subst h
      exact ⟨{ d with status := .revoked }, handleRevoke_self st id d hd, rfl⟩
    · refine ⟨d, ?_, hterm⟩
      show lookupDoc (handleRevoke st id').1 id = some d
      rw [handleRevoke_lookup_other st id' id h]
      exact hd
  | regen o pw nid ivb now ip =>
    exact regen_preserves_terminal key users actor st o pw nid ivb now ip id d hsafe hd hterm
  | send id' now ip => exact hsafe.elim
  | create req l ivb now ip =>
    refine ⟨d, ?_, hterm⟩
    show lookupDoc (createPasswordLink key users actor req l ivb now ip true true st).1 id =
      some d
    rw [createPasswordLink_lookup_other key users actor req l ivb now ip true true st id
      (Ne.symm hsafe)]
    exact hd

set_option maxRecDepth 4096 in
/-- Claim C4 (counterexample) — the send-email operation has no status guard:
invoked on a link already in the terminal state `viewed`, it succeeds and
moves the status back to `sent`, so a terminal link returns to a live state,
violating the claimed monotonicity. -/
theorem C4_monotonic_status_counterexample :
    docViewedW.status = .viewed ∧ Status.viewed.isTerminal = true ∧
    (sendPasswordEmail usersW (some "u1") stViewedW "idB" 5 "203.0.113.7" true true).2 =
      .ok true ∧
    (lookupDoc (sendPasswordEmail usersW (some "u1") stViewedW "idB" 5 "203.0.113.7"
        true true).1 "idB").map PasswordDoc.status = some .sent ∧
    (lookupDoc ([StoreOp.send "idB" 5 "203.0.113.7"].foldl
        (applyOp keyW usersW (some "u1")) stViewedW) "idB").map PasswordDoc.status =
      some .sent :=
  ⟨rfl, rfl, rfl, rfl, by decide⟩

/-- Claim C4 (amended) — monotonic status holds for every operation except the
unguarded send-email update: once a link is terminal, no sequence of reveal,
revoke, regenerate or create operations (with fresh generated ids, and not
targeting it as a regeneration's new id) ever moves it back to `pending` or
`sent`; the send-email operation violates this (see the counterexample). -/
theorem C4_monotonic_status_amended (key : List Nat) (users : List (String × UserRec))
    (actor : Option String) (ops : List StoreOp) (st : Store) (id : String)
    (d : PasswordDoc) (hd : lookupDoc st id = some d) (hterm : d.status.isTerminal = true)
    (hsafe : ∀ op ∈ ops, opSafeFor id op) :
    ∃ d', lookupDoc (ops.foldl (applyOp key users actor) st) id = some d' ∧
      d'.status.isTerminal = true ∧ d'.status ≠ .pending ∧ d'.status ≠ .sent := by
  revert hsafe
  induction ops generalizing st d with
  | nil =>
    intro _
    obtain ⟨hp, hs⟩ := isTerminal_ne hterm
    exact ⟨d, hd, hterm, hp, hs⟩
  | cons op rest ih =>
    intro hsafe
    obtain ⟨d1, h1, h2⟩ := applyOp_preserves_terminal key users actor st op id d
      (hsafe op (List.mem_cons_self op rest)) hd hterm
    exact ih (applyOp key users actor st op) d1 h1 h2
      (fun o ho => hsafe o (List.mem_cons_of_mem op ho))

theorem C4_monotonic_status_witness :
    ∃ d', lookupDoc ([StoreOp.revoke "idB", StoreOp.reveal "idB" 6 "198.51.100.9"].foldl
        (applyOp keyW usersW (some "u1")) stViewedW) "idB" = some d' ∧
      d'.status.isTerminal = true ∧ d'.status ≠ .pending ∧ d'.status ≠ .sent :=
  C4_monotonic_status_amended keyW usersW (some "u1") _ stViewedW "idB" docViewedW rfl rfl
    (by simp [opSafeFor])

/-! ## Claim C7 -/

set_option maxRecDepth 100000 in
/-- Claim C7 (counterexample) — the allow-list check is exact string
membership: a request from 10.1.2.3, an address contained in the allow-listed
CIDR range 10.0.0.0/8, presenting a valid credential, is rejected with
HTTP 403, although the claim says CIDR-range containment admits it. -/
theorem C7_api_gate_counterexample :
    specCidrContains "10.0.0.0/8" "10.1.2.3" = true ∧
    (api keyW apiKeysW ["10.0.0.0/8"] reqCidr "idA" ivW 9 emptyStore).2 =
      .err 403 "IP not whitelisted" :=
  ⟨rfl, rfl⟩

/-- Claim C7 (amended) — API gate admission with exact-match allow-listing: a
credential whose hash matches no active stored API Credential yields HTTP 401;
when the allow-list is non-empty, a source address that is not literally one
of its entries yields HTTP 403 (no CIDR-range interpretation is performed);
and when the allow-list is empty, every source address is admitted. -/
theorem C7_api_gate_amended (key : List Nat) (apiKeys : List ApiKeyDoc)
    (whitelist : List String) (req : ApiReq) (linkId : String) (ivb : List Nat) (now : Nat)
    (st : Store) (k : String) (hm : req.method = "POST") (hk : req.apiKey = some k) :
    ((∀ dk ∈ apiKeys, ¬(dk.keyHash = hashApiKey k ∧ dk.active = true)) →
      api key apiKeys whitelist req linkId ivb now st = (st, .err 401 "Invalid API key")) ∧
    (∀ dk, apiKeys.find? (fun d => d.keyHash == hashApiKey k && d.active) = some dk →
      whitelist ≠ [] → whitelist.contains req.clientIP = false →
      api key apiKeys whitelist req linkId ivb now st =
        (st, .err 403 "IP not whitelisted")) ∧
    (∀ dk, apiKeys.find? (fun d => d.keyHash == hashApiKey k && d.active) = some dk →
      whitelist = [] → req.recipientEmail ≠ "" → req.password ≠ [] →
      (api key apiKeys whitelist req linkId ivb now st).2 =
        .created linkId (appUrl ++ "/p/" ++ linkId)
          (if req.sendEmail then .sent else .pending)) := by
  refine ⟨?_, ?_, ?_⟩
  · intro hall
    have hno : apiKeys.find? (fun d => d.keyHash == hashApiKey k && d.active) = none :=
      List.find?_eq_none.2 (fun x hx => by simpa using hall x hx)
    simp [api, hm, hk, hno]
  · intro dk hfind hwl hip
    have hlen : 0 < whitelist.length := List.length_pos.2 hwl
    have hip' : req.clientIP ∉ whitelist := by simpa using hip
    simp [api, hm, hk, hfind, hip', hlen]
  · intro dk hfind hwe hre hrp
    subst hwe
    have hval : ¬(req.recipientEmail = "" ∨ req.password = []) := by simp [hre, hrp]
    simp [api, hm, hk, hfind, hval]

theorem C7_api_gate_witness :
    api keyW [] [] reqPostW "idZ" ivW 0 emptyStore =
      (emptyStore, .err 401 "Invalid API key") :=
  (C7_api_gate_amended keyW [] [] reqPostW "idZ" ivW 0 emptyStore "sk-z" rfl rfl).1
    (fun dk hdk => absurd hdk (List.not_mem_nil dk))

theorem C10_no_disclosure_witness :
    checkPasswordLink stViewedW "idA" = .ok { valid := false, recipientName := none } ∧
    checkPasswordLink stViewedW "idB" = .ok { valid := false, recipientName := none } ∧
    (viewPassword keyW stViewedW "idA" 4 "198.51.100.7" true).2 =
      .error (.notFound "Password link not found") ∧
    (viewPassword keyW stViewedW "idB" 4 "198.51.100.7" true).2 =
      .error (.failedPrecondition "This link has already been used") :=
  C10_no_disclosure_amended keyW stViewedW "idA" "idB" docViewedW 4 "198.51.100.7" rfl rfl rfl
    (by decide) (by decide)

end PasswordPortal
